import Mathlib

/-!
Formal model of the MotoMuse route-generation pipeline
(`backend/route_generation.py`) and proofs about it.

Modelling conventions, used throughout:

* Python unbounded integers are `ℤ` (or `ℕ` where the source value is
  provably non-negative, e.g. the zig-zag varint payload of the polyline
  codec, which Python also keeps non-negative).
* Python floats carrying geographic coordinates are modelled exactly:
  decoded polyline points are `ℚ` pairs (every decoded coordinate is an
  integer multiple of 1e-5, and at that granularity double-precision
  floats are exact for equality tests and for the divisions by 1e5 the
  source performs, so the idealisation is faithful).  Transcendental
  float computations (`math.sin`, `math.atan2`, ...) are modelled over
  `ℝ`; those definitions are necessarily noncomputable and theorems about
  them are proved symbolically.
* Python strings are Lean `String`/`List Char`; encoded polyline strings
  are `List ℕ` of character codes, since the codec only ever applies
  `ord`/`chr` arithmetic to them.
* Dynamic dict-shaped Directions API payloads are typed records
  (`Step`, `Leg`, `Route`), with absent optional keys modelled by the
  same defaults the source supplies to `.get` (empty string / empty
  list).  Validation issue strings are modelled as an inductive `Issue`
  with the numeric payload of the formatted message where relevant.
* External collaborators (the Claude LLM, the Directions engine, the
  Street View metadata endpoint) are oracles consumed by call index,
  mirroring the mocked clients of the test-suite.  Prompt strings are
  built by the source only to be sent to the LLM oracle or recorded in
  the debug trace, and the oracles ignore their content, so prompts are
  modelled as structured values rather than formatted text.
-/

namespace MotoMuse

/-! ## Python integer / rounding primitives -/

/-- Python `round` to the nearest integer, ties to the even neighbour
(banker rounding), on an exact rational. -/
def pyRound (q : ℚ) : ℤ :=
  let f : ℤ := ⌊q⌋
  let r : ℚ := q - f
  if r < 1/2 then f
  else if 1/2 < r then f + 1
  else if Even f then f else f + 1

/-- Python `x // y` on integers (floor division), total with Python
raising on `y = 0` left out of scope (never hit by the source). -/
def pyFloorDiv (x y : ℤ) : ℤ := ⌊(x : ℚ) / (y : ℚ)⌋

/-! ## Polyline codec (`_encode_polyline` / `_decode_polyline`)

The codec works on encoded strings as lists of character codes: the
source only applies `ord c - 63` and `chr (v + 63)` to them. -/

/-- The inner `while value >= 0x20` loop of `_encode_polyline`: emits the
base-64-offset varint chunks (already shifted by 63) for one zig-zag
value, least-significant 5-bit group first.  The fuel only serves
structural recursion: the value shrinks by a factor 32 each step, so
fuel equal to the starting value is never exhausted (the fuel-0 arm
coincides with the terminating branch on every reachable input). -/
def encodeChunksAux : ℕ → ℕ → List ℕ
  | 0, value => [value + 63]
  | fuel + 1, value =>
    if value < 0x20 then [value + 63]
    else ((0x20 ||| (value &&& 0x1F)) + 63) :: encodeChunksAux fuel (value >>> 5)

def encodeChunks (value : ℕ) : List ℕ := encodeChunksAux value value

/-- The per-delta body of `_encode_polyline`: Python
`value = ~(delta << 1) if delta < 0 else (delta << 1)` (on unbounded
ints `~x = -x - 1` and `x << 1 = 2 * x`), then the varint chunks. -/
def encodeValue (delta : ℤ) : List ℕ :=
  encodeChunks (if delta < 0 then (-(2 * delta) - 1).toNat else (2 * delta).toNat)

/-- The main loop of `_encode_polyline`, carrying `prev_lat`/`prev_lng`
in e5 units. -/
def encodePolylineAux : List (ℚ × ℚ) → ℤ → ℤ → List ℕ
  | [], _, _ => []
  | (lat, lng) :: rest, prev_lat, prev_lng =>
    let lat_e5 := pyRound (lat * 100000)
    let lng_e5 := pyRound (lng * 100000)
    encodeValue (lat_e5 - prev_lat) ++ encodeValue (lng_e5 - prev_lng) ++
      encodePolylineAux rest lat_e5 lng_e5

/-- Lean model of `_encode_polyline`. -/
def _encode_polyline (coordinates : List (ℚ × ℚ)) : List ℕ :=
  encodePolylineAux coordinates 0 0

/-- The inner `while True` loop of `_decode_polyline`: reads one varint
from the front of the string, returning the accumulated value and the
rest, or `none` when the string ends mid-varint (where Python raises
`IndexError` on `encoded[index]`). -/
def decodeValue : List ℕ → ℕ → ℕ → Option (ℕ × List ℕ)
  | [], _, _ => none
  | c :: rest, shift, value =>
    let b := c - 63
    let value := value ||| ((b &&& 0x1F) <<< shift)
    if b < 0x20 then some (value, rest) else decodeValue rest (shift + 5) value

/-- Zig-zag decoding, the `~(value >> 1) if (value & 1) else (value >> 1)`
of `_decode_polyline`. -/
def unzigzag (value : ℕ) : ℤ :=
  if value &&& 1 = 1 then -((value >>> 1 : ℕ) : ℤ) - 1 else ((value >>> 1 : ℕ) : ℤ)

/-- Reading one varint consumes at least one character (needed for the
termination of the decode loop). -/
theorem decodeValue_length_lt :
    ∀ (l : List ℕ) (shift value v : ℕ) (r : List ℕ),
      decodeValue l shift value = some (v, r) → r.length < l.length := by
  intro l
  induction l with
  | nil => intro shift value v r h; simp [decodeValue] at h
  | cons c rest ih =>
    intro shift value v r h
    simp only [decodeValue] at h
    by_cases hb : c - 63 < 0x20
    · simp only [hb, if_pos, Option.some.injEq, Prod.mk.injEq] at h
      rw [← h.2]
      simp
    · simp only [hb, if_neg, not_false_iff] at h
      exact Nat.lt_trans (ih _ _ _ _ h) (Nat.lt_succ_self _)

/-- The outer `while index < len(encoded)` loop of `_decode_polyline`,
carrying the running `lat`/`lng` in e5 units; `none` also models the
`IndexError` Python raises on a string that ends mid-varint.  The fuel
only serves structural recursion: each iteration consumes at least two
characters (`decodeValue_length_lt`), so any fuel beyond the string
length is never exhausted. -/
def decodePolylineAux : ℕ → List ℕ → ℤ → ℤ → Option (List (ℚ × ℚ))
  | 0, _, _, _ => none
  | _ + 1, [], _, _ => some []
  | fuel + 1, c :: rest, lat, lng =>
    (decodeValue (c :: rest) 0 0).bind fun dv1 =>
      (decodeValue dv1.2 0 0).bind fun dv2 =>
        let lat2 := lat + unzigzag dv1.1
        let lng2 := lng + unzigzag dv2.1
        (decodePolylineAux fuel dv2.2 lat2 lng2).map
          fun rest2 => (((lat2 : ℚ) / 100000, (lng2 : ℚ) / 100000) :: rest2)

/-- Lean model of `_decode_polyline`. -/
def _decode_polyline (encoded : List ℕ) : Option (List (ℚ × ℚ)) :=
  decodePolylineAux (encoded.length + 1) encoded 0 0

/-! ## Python string primitives -/

/-- The whitespace characters `str.strip` removes (ASCII fragment). -/
def isPyWs (c : Char) : Bool :=
  c = ' ' ∨ c = '\t' ∨ c = '\n' ∨ c = '\x0d' ∨ c = '\x0b' ∨ c = '\x0c'

/-- Python `str.strip()` with no argument. -/
def pyStrip (s : List Char) : List Char :=
  ((s.dropWhile isPyWs).reverse.dropWhile isPyWs).reverse

/-- Python `str.lower()` (ASCII fragment, all the source compares). -/
def pyLower (s : List Char) : List Char := s.map Char.toLower

/-- Python `needle in haystack` on strings. -/
def pyInStr (needle haystack : List Char) : Bool := decide (needle <:+: haystack)

def isDigitChar (c : Char) : Bool := 48 ≤ c.toNat ∧ c.toNat ≤ 57

def digitVal (c : Char) : ℕ := c.toNat - 48

/-- Numeric value of a digit string (most significant first). -/
def digitsVal (l : List Char) : ℕ := l.foldl (fun a c => a * 10 + digitVal c) 0

/-- Python `float(str)` on the decimal forms the source can meet:
optional sign, digits with an optional point and an optional exponent
(the special forms `inf`/`nan` and digit-group underscores are left out
of scope; they never denote a coordinate).  The value is kept exact in
`ℚ` rather than rounded to binary, faithful at the magnitudes involved. -/
def pyFloat (s : List Char) : Option ℚ :=
  let s := pyStrip s
  let (sign, s) : ℚ × List Char :=
    match s with
    | '-' :: rest => (-1, rest)
    | '+' :: rest => (1, rest)
    | _ => (1, s)
  let intDigits := s.takeWhile isDigitChar
  let s := s.dropWhile isDigitChar
  let (fracDigits, s) : List Char × List Char :=
    match s with
    | '.' :: rest => (rest.takeWhile isDigitChar, rest.dropWhile isDigitChar)
    | _ => ([], s)
  if intDigits.isEmpty ∧ fracDigits.isEmpty then none else
  let mantissa : ℚ :=
    (digitsVal intDigits : ℚ) + (digitsVal fracDigits : ℚ) / (10 : ℚ) ^ fracDigits.length
  match s with
  | [] => some (sign * mantissa)
  | e :: rest =>
    if e = 'e' ∨ e = 'E' then
      let (esign, rest) : Bool × List Char :=
        match rest with
        | '-' :: r => (true, r)
        | '+' :: r => (false, r)
        | _ => (false, rest)
      let eDigits := rest.takeWhile isDigitChar
      let rest := rest.dropWhile isDigitChar
      if eDigits.isEmpty ∨ ¬ rest.isEmpty then none
      else if esign then some (sign * mantissa / (10 : ℚ) ^ digitsVal eDigits)
      else some (sign * mantissa * (10 : ℚ) ^ digitsVal eDigits)
    else none

/-! ## JSON model (`json.loads`)

A recursive-descent model of the strict-JSON fragment `json.loads`
accepts (the non-standard `NaN`/`Infinity` literals are out of scope).
Numbers are kept exact in `ℚ`: JSON numbers are decimal literals, so the
idealisation only drops the final binary rounding Python performs. -/

inductive Json where
  | null : Json
  | bool (b : Bool) : Json
  | num (q : ℚ) : Json
  | str (s : List Char) : Json
  | arr (elems : List Json) : Json
  | obj (fields : List (List Char × Json)) : Json

/-- The whitespace `json.loads` skips between tokens. -/
def isJsonWs (c : Char) : Bool :=
  c = ' ' ∨ c = '\t' ∨ c = '\n' ∨ c = '\x0d'

def skipJsonWs (l : List Char) : List Char := l.dropWhile isJsonWs

/-- One JSON string body (after the opening quote), with the standard
escapes; returns the decoded characters and the input past the closing
quote.  Unescaped control characters are refused, as in strict mode. -/
def parseJsonString : List Char → Option (List Char × List Char)
  | [] => none
  | '"' :: rest => some ([], rest)
  | '\\' :: esc =>
    match esc with
    | '"' :: rest => (parseJsonString rest).map fun (s, r) => ('"' :: s, r)
    | '\\' :: rest => (parseJsonString rest).map fun (s, r) => ('\\' :: s, r)
    | '/' :: rest => (parseJsonString rest).map fun (s, r) => ('/' :: s, r)
    | 'b' :: rest => (parseJsonString rest).map fun (s, r) => ('\x08' :: s, r)
    | 'f' :: rest => (parseJsonString rest).map fun (s, r) => ('\x0c' :: s, r)
    | 'n' :: rest => (parseJsonString rest).map fun (s, r) => ('\n' :: s, r)
    | 'r' :: rest => (parseJsonString rest).map fun (s, r) => ('\x0d' :: s, r)
    | 't' :: rest => (parseJsonString rest).map fun (s, r) => ('\t' :: s, r)
    | 'u' :: a :: b :: c :: d :: rest =>
      let hexVal (x : Char) : Option ℕ :=
        if isDigitChar x then some (digitVal x)
        else if 97 ≤ x.toNat ∧ x.toNat ≤ 102 then some (x.toNat - 87)
        else if 65 ≤ x.toNat ∧ x.toNat ≤ 70 then some (x.toNat - 55)
        else none
      match hexVal a, hexVal b, hexVal c, hexVal d with
      | some ha, some hb, some hc, some hd =>
        (parseJsonString rest).map fun (s, r) =>
          (Char.ofNat (((ha * 16 + hb) * 16 + hc) * 16 + hd) :: s, r)
      | _, _, _, _ => none
    | _ => none
  | c :: rest =>
    if c.toNat < 0x20 then none
    else (parseJsonString rest).map fun (s, r) => (c :: s, r)

/-- One JSON number (strict grammar: an optional minus, `0` or a
non-zero-led digit run, optional fraction, optional exponent). -/
def parseJsonNumber (l : List Char) : Option (ℚ × List Char) :=
  let (sign, l) : ℚ × List Char :=
    match l with
    | '-' :: rest => (-1, rest)
    | _ => (1, l)
  let intDigits := l.takeWhile isDigitChar
  let l := l.dropWhile isDigitChar
  if intDigits.isEmpty then none
  else if intDigits.length > 1 ∧ intDigits.head? = some '0' then none
  else
    let (hadDot, fracDigits, l) : Bool × List Char × List Char :=
      match l with
      | '.' :: rest =>
        (true, rest.takeWhile isDigitChar, rest.dropWhile isDigitChar)
      | _ => (false, [], l)
    if hadDot ∧ fracDigits.isEmpty then none
    else
      let mantissa : ℚ :=
        (digitsVal intDigits : ℚ) +
          (digitsVal fracDigits : ℚ) / (10 : ℚ) ^ fracDigits.length
      match l with
      | e :: rest =>
        if e = 'e' ∨ e = 'E' then
          let (esign, rest) : Bool × List Char :=
            match rest with
            | '-' :: r => (true, r)
            | '+' :: r => (false, r)
            | _ => (false, rest)
          let eDigits := rest.takeWhile isDigitChar
          let rest := rest.dropWhile isDigitChar
          if eDigits.isEmpty then none
          else if esign then
            some (sign * mantissa / (10 : ℚ) ^ digitsVal eDigits, rest)
          else some (sign * mantissa * (10 : ℚ) ^ digitsVal eDigits, rest)
        else some (sign * mantissa, e :: rest)
      | [] => some (sign * mantissa, [])

mutual

/-- One JSON value, by recursive descent (the fuel strictly bounds the
nesting depth; `pyJsonLoads` supplies more fuel than any input can use,
so the model is total exactly where `json.loads` succeeds). -/
def parseJsonValue : ℕ → List Char → Option (Json × List Char)
  | 0, _ => none
  | _ + 1, [] => none
  | fuel + 1, l@(c :: rest) =>
    match c with
    | 'n' =>
      match l with
      | 'n' :: 'u' :: 'l' :: 'l' :: r => some (Json.null, r)
      | _ => none
    | 't' =>
      match l with
      | 't' :: 'r' :: 'u' :: 'e' :: r => some (Json.bool true, r)
      | _ => none
    | 'f' =>
      match l with
      | 'f' :: 'a' :: 'l' :: 's' :: 'e' :: r => some (Json.bool false, r)
      | _ => none
    | '"' =>
      (parseJsonString rest).map fun (s, r) => (Json.str s, r)
    | '[' =>
      match skipJsonWs rest with
      | ']' :: r => some (Json.arr [], r)
      | l2 => (parseJsonItems fuel l2).map fun (es, r) => (Json.arr es, r)
    | '\x7b' =>
      match skipJsonWs rest with
      | '\x7d' :: r => some (Json.obj [], r)
      | l2 => (parseJsonMembers fuel l2).map fun (fs, r) => (Json.obj fs, r)
    | _ => (parseJsonNumber l).map fun (q, r) => (Json.num q, r)

/-- Comma-separated values up to the closing `]`. -/
def parseJsonItems : ℕ → List Char → Option (List Json × List Char)
  | 0, _ => none
  | fuel + 1, l => do
    let (v, r) ← parseJsonValue fuel l
    match skipJsonWs r with
    | ',' :: r2 =>
      (parseJsonItems fuel (skipJsonWs r2)).map fun (vs, r3) => (v :: vs, r3)
    | ']' :: r2 => some ([v], r2)
    | _ => none

/-- Comma-separated `"key": value` members up to the closing brace. -/
def parseJsonMembers : ℕ → List Char → Option (List (List Char × Json) × List Char)
  | 0, _ => none
  | fuel + 1, l => do
    let (k, r) ← match l with
      | '"' :: rest => parseJsonString rest
      | _ => none
    match skipJsonWs r with
    | ':' :: r2 => do
      let (v, r3) ← parseJsonValue fuel (skipJsonWs r2)
      match skipJsonWs r3 with
      | ',' :: r4 =>
        (parseJsonMembers fuel (skipJsonWs r4)).map fun (fs, r5) => ((k, v) :: fs, r5)
      | '\x7d' :: r4 => some ([(k, v)], r4)
      | _ => none
    | _ => none

end

/-- Lean model of `json.loads`: the whole text must be one value with
only whitespace around it.  The fuel exceeds twice the text length,
which strictly bounds the recursion the recursive descent can make, so
fuel exhaustion is unreachable. -/
def pyJsonLoads (text : List Char) : Option Json :=
  match parseJsonValue (2 * text.length + 2) (skipJsonWs text) with
  | some (v, rest) => if skipJsonWs rest = [] then some v else none
  | none => none

/-! ## `_extract_json_array` -/

/-- The substring `re.search(r"\[.*\]", text, re.DOTALL)` matches: from
the first `[` of the text to the last `]` (the leftmost possible start,
then the greedy, longest possible extent), or `none` when no `[` has any
`]` after it. -/
def reSearchBracketSpan (text : List Char) : Option (List Char) :=
  match text.findIdx? (· = '[') with
  | none => none
  | some f =>
    match text.reverse.findIdx? (· = ']') with
    | none => none
    | some rj =>
      let j := text.length - 1 - rj
      if f < j then some ((text.drop f).take (j - f + 1)) else none

/-- Lean model of `_extract_json_array`: whole-string parse first, then
the first bracket-to-last-bracket span. -/
def _extract_json_array (text : List Char) : Option (List Json) :=
  let text := pyStrip text
  match pyJsonLoads text with
  | some (Json.arr l) => some l
  | _ =>
    match reSearchBracketSpan text with
    | none => none
    | some span =>
      match pyJsonLoads span with
      | some (Json.arr l) => some l
      | _ => none

/-! ## Tuneable constants (source names and values) -/

def LOOP_WAYPOINT_COUNT : ℕ := 5
def ONEWAY_WAYPOINT_COUNT : ℕ := 4
def HIGHWAY_FRACTION_LIMIT : ℚ := 10/100
/-- The motorway keyword set; a `frozenset` in the source, an order-free
membership test (`any`), so a list is a faithful carrier. -/
def HIGHWAY_STEP_KEYWORDS : List (List Char) :=
  ["motorway".data, "highway".data, "freeway".data,
   "m1".data, "m20".data, "m25".data,
   "a1".data, "a2".data, "a4".data, "a6".data, "a7".data, "a9".data,
   "a10".data, "a27".data, "a28".data]
def UTURN_STEP_MAX_M : ℤ := 200
def UTURN_BEARING_CHANGE : ℤ := 150
def OVERLAP_SAMPLE_INTERVAL_M : ℤ := 300
def OVERLAP_PROXIMITY_THRESHOLD_M : ℤ := 150
def OVERLAP_MIN_INDEX_GAP : ℕ := 5
def OVERLAP_FRACTION_LIMIT : ℚ := 3/100
def SPUR_SAMPLE_INTERVAL_M : ℤ := 200
def SPUR_PROXIMITY_M : ℤ := 300
def SPUR_MIN_INDEX_GAP : ℕ := 8
def SPUR_PATH_RATIO : ℚ := 5
def SPUR_MIN_LENGTH_M : ℤ := 500
def UTURN_BEARING_THRESHOLD : ℤ := 140
def SPUR_CORRIDOR_WIDTH_M : ℤ := 500
def SPUR_SNAP_MIN_LENGTH_M : ℤ := 200
def URBAN_SHORT_STEP_THRESHOLD_M : ℤ := 300
def URBAN_SHORT_STEP_FRACTION_LIMIT : ℚ := 30/100
def MAX_ROUTE_ATTEMPTS : ℕ := 5
def FRESH_REGEN_ATTEMPT : ℕ := 3
def STREET_VIEW_IMAGE_COUNT : ℕ := 3
def STREET_VIEW_SEARCH_RADIUS_M : ℤ := 2000
def STREET_VIEW_SEARCH_INTERVAL_M : ℤ := 500

/-! ## Directions data model

Typed records for the dict-shaped Directions API payload.  The absent
`"key_waypoints"` key (only attached by `_build_and_validate`) is an
`Option`; other defaults mirror the `.get(..., "")` fallbacks of the
source. -/

/-- A coordinate pair in degrees, exact. -/
abbrev Point : Type := ℚ × ℚ

/-- One turn-by-turn step of a leg (`leg["steps"][k]`). -/
structure Step where
  distance : ℤ
  duration : ℤ
  html_instructions : List Char
  start_location : Point
  end_location : Point
  /-- Encoded `polyline.points` fragment; `[]` models an absent key. -/
  polyline : List ℕ := []

/-- One leg of the route (`route["legs"][k]`). -/
structure Leg where
  distance : ℤ
  duration : ℤ
  start_address : List Char
  end_address : List Char
  steps : List Step

/-- One route of a Directions API response (`result[0]`). -/
structure Route where
  /-- Encoded `overview_polyline.points`; `[]` models an absent key. -/
  overview_polyline : List ℕ := []
  legs : List Leg
  /-- Present only after `_build_and_validate` attaches it. -/
  key_waypoints : Option (List Point) := none

/-- A validation issue: the inductive tag of the formatted message the
source appends, with its numeric payload where one is interpolated. -/
inductive Issue where
  | directionsApiError : Issue
  | noRoutesReturned : Issue
  | noRouteFromApi : Issue
  | highway (pct : ℚ) : Issue
  | uturn (step : ℕ) : Issue
  | doublesBack (fraction : ℚ) : Issue
  | deadEndSpur (lat lng : ℚ) : Issue
  | urban (fraction : ℚ) : Issue

/-! ## Geometry primitives (`_bearing`, `_haversine_m`)

These call `math.sin`/`math.cos`/`math.atan2`/`math.sqrt` on floats; the
model idealises them over `ℝ`, so the definitions from here on are
noncomputable and evaluated symbolically in proofs. -/

open scoped Classical in
/-- The two-argument arctangent `math.atan2 y x` (result in (-pi, pi]). -/
noncomputable def atan2 (y x : ℝ) : ℝ :=
  if 0 < x then Real.arctan (y / x)
  else if x < 0 ∧ 0 ≤ y then Real.arctan (y / x) + Real.pi
  else if x < 0 then Real.arctan (y / x) - Real.pi
  else if 0 < y then Real.pi / 2
  else if y < 0 then -(Real.pi / 2)
  else 0

/-- `math.radians`. -/
noncomputable def radians (d : ℝ) : ℝ := d * (Real.pi / 180)

/-- `math.degrees`. -/
noncomputable def degrees (r : ℝ) : ℝ := r * (180 / Real.pi)

/-- Python float `a % b` for positive `b` (floored modulus). -/
noncomputable def pyMod (a b : ℝ) : ℝ := a - b * ⌊a / b⌋

/-- Lean model of `_bearing` (initial compass bearing, degrees 0-360). -/
noncomputable def _bearing (lat1 lng1 lat2 lng2 : ℝ) : ℝ :=
  let lat1r := radians lat1
  let lat2r := radians lat2
  let dlng := radians (lng2 - lng1)
  let x := Real.sin dlng * Real.cos lat2r
  let y := Real.cos lat1r * Real.sin lat2r -
    Real.sin lat1r * Real.cos lat2r * Real.cos dlng
  pyMod (degrees (atan2 x y) + 360) 360

/-- Lean model of `_haversine_m` (great-circle metres, R = 6371000). -/
noncomputable def _haversine_m (lat1 lng1 lat2 lng2 : ℝ) : ℝ :=
  let earth_r : ℝ := 6371000
  let lat1_r := radians lat1
  let lat2_r := radians lat2
  let dlat := lat2_r - lat1_r
  let dlng := radians (lng2 - lng1)
  let a := Real.sin (dlat / 2) ^ 2 +
    Real.cos lat1_r * Real.cos lat2_r * Real.sin (dlng / 2) ^ 2
  earth_r * 2 * atan2 (Real.sqrt a) (Real.sqrt (1 - a))

/-- `_haversine_m` on exact coordinate pairs. -/
noncomputable def havQ (p q : Point) : ℝ :=
  _haversine_m (p.1 : ℝ) (p.2 : ℝ) (q.1 : ℝ) (q.2 : ℝ)

/-- `_bearing` on exact coordinate pairs. -/
noncomputable def bearingQ (p q : Point) : ℝ :=
  _bearing (p.1 : ℝ) (p.2 : ℝ) (q.1 : ℝ) (q.2 : ℝ)

/-- Wrapped absolute bearing difference (`diff = 360 - diff` past 180),
shared by the U-turn validator and the U-turn waypoint detector. -/
noncomputable def bearingDiff (b1 b2 : ℝ) : ℝ :=
  let diff := |b1 - b2|
  if 180 < diff then 360 - diff else diff

/-! ## Validators -/

/-- Lean model of `_is_highway_step`. -/
def _is_highway_step (step : Step) : Bool :=
  HIGHWAY_STEP_KEYWORDS.any fun kw => pyInStr kw (pyLower step.html_instructions)

/-- Lean model of `_sum_legs`: (total km, total minutes). -/
def _sum_legs (directions_result : Route) : ℚ × ℤ :=
  let total_distance_m := (directions_result.legs.map Leg.distance).sum
  let total_duration_s := (directions_result.legs.map Leg.duration).sum
  ((total_distance_m : ℚ) / 1000, pyFloorDiv total_duration_s 60)

/-- The fragment-merging loop shared by `_build_detailed_polyline` and
`_decode_leg_polyline`: appends each decoded step fragment, dropping its
first point when it equals the last point already merged.  A fragment
the decoder rejects contributes `[]` here; every theorem about decoded
content assumes well-formed fragments, where the model and the source
agree. -/
def mergeOne (all_points : List Point) (step : Step) : List Point :=
  if step.polyline = [] then all_points
  else
    let step_points := (_decode_polyline step.polyline).getD []
    if step_points = [] then all_points
    else
      let step_points :=
        if all_points ≠ [] ∧ step_points.head? = all_points.getLast? then
          step_points.tail
        else step_points
      all_points ++ step_points

def mergeStepPoints (steps : List Step) : List Point :=
  steps.foldl mergeOne []

/-- Lean model of `_build_detailed_polyline`. -/
def _build_detailed_polyline (directions_result : Route) : List ℕ :=
  let all_points := mergeStepPoints (directions_result.legs.flatMap Leg.steps)
  if all_points ≠ [] then _encode_polyline all_points
  else directions_result.overview_polyline

/-- Lean model of `_decode_leg_polyline`. -/
def _decode_leg_polyline (leg : Leg) : List Point :=
  mergeStepPoints leg.steps

open scoped Classical

/-- The resampling loop shared by `_check_polyline_overlap` and
`_check_backtrack_spurs`: keep the first point, then every point at
which the accumulated distance reaches the interval (resetting it). -/
noncomputable def sampleAux (interval : ℝ) : Point → List Point → ℝ → List Point
  | _, [], _ => []
  | prev, p :: rest, acc =>
    let acc2 := acc + havQ prev p
    if interval ≤ acc2 then p :: sampleAux interval p rest 0
    else sampleAux interval p rest acc2

/-- Resampling entry point: `sampled = [points[0]]` then the loop. -/
noncomputable def samplePoints (interval : ℝ) : List Point → List Point
  | [] => []
  | p :: rest => p :: sampleAux interval p rest 0

/-- The inner `for j in range(i + GAP, n)` scan of
`_check_polyline_overlap`: whether some point of `l` lies within the
proximity threshold of `p` (the source breaks at the first hit, so only
existence matters). -/
noncomputable def anyClose (p : Point) : List Point → Bool
  | [] => false
  | q :: rest =>
    if havQ p q < (OVERLAP_PROXIMITY_THRESHOLD_M : ℝ) then true
    else anyClose p rest

/-- The outer overlap-counting loop: one count per sampled point that
has a close partner at least `OVERLAP_MIN_INDEX_GAP` samples ahead. -/
noncomputable def overlapCount : List Point → ℕ
  | [] => 0
  | p :: rest =>
    (if anyClose p (rest.drop (OVERLAP_MIN_INDEX_GAP - 1)) then 1 else 0) +
      overlapCount rest

/-- Lean model of `_check_polyline_overlap`. -/
noncomputable def _check_polyline_overlap (overview_polyline : List ℕ) : List Issue :=
  let points := (_decode_polyline overview_polyline).getD []
  if points.length < 2 then []
  else
    let sampled := samplePoints (OVERLAP_SAMPLE_INTERVAL_M : ℝ) points
    if sampled.length < OVERLAP_MIN_INDEX_GAP * 2 then []
    else
      let fraction : ℚ :=
        if sampled.length = 0 then 0
        else (overlapCount sampled : ℚ) / (sampled.length : ℚ)
      if OVERLAP_FRACTION_LIMIT < fraction then [Issue.doublesBack fraction]
      else []

/-- The per-pair body of the `_check_backtrack_spurs` double loop. -/
noncomputable def spurHit (sampled : List Point) (segDist : List ℝ)
    (i j : ℕ) : Option Issue :=
  let n := sampled.length
  if i < SPUR_MIN_INDEX_GAP ∧ n - SPUR_MIN_INDEX_GAP < j then none
  else
    let pi_ := sampled.getD i (0, 0)
    let pj := sampled.getD j (0, 0)
    let straight := havQ pi_ pj
    if (SPUR_PROXIMITY_M : ℝ) < straight then none
    else
      let path_dist := ((segDist.drop i).take (j - i)).sum
      let spur_length := path_dist / 2
      let ratio := if straight < 1 then path_dist else path_dist / straight
      if ( SPUR_PATH_RATIO : ℝ) < ratio ∧ (SPUR_MIN_LENGTH_M : ℝ) < spur_length then
        some (Issue.deadEndSpur pi_.1 pi_.2)
      else none

/-- Lean model of `_check_backtrack_spurs` (the double loop returns at
the first hit, which `List.findSome?` over the lexicographically ordered
index pairs reproduces). -/
noncomputable def _check_backtrack_spurs (overview_polyline : List ℕ) : List Issue :=
  let points := (_decode_polyline overview_polyline).getD []
  if points.length < 2 then []
  else
    let sampled := samplePoints (SPUR_SAMPLE_INTERVAL_M : ℝ) points
    if sampled.length < SPUR_MIN_INDEX_GAP * 2 then []
    else
      let segDist := (sampled.zip sampled.tail).map fun (a, b) => havQ a b
      let n := sampled.length
      let pairs := (List.range n).flatMap fun i =>
        ((List.range n).drop (i + SPUR_MIN_INDEX_GAP)).map fun j => (i, j)
      match pairs.findSome? (fun (i, j) => spurHit sampled segDist i j) with
      | some issue => [issue]
      | none => []

/-- The consecutive-step U-turn scan of `_validate_route` (`for i in
range(1, len(steps))`, breaking at the first flag). -/
noncomputable def findUturn (i : ℕ) : List Step → Option ℕ
  | prev :: curr :: rest =>
    if prev.distance < UTURN_STEP_MAX_M ∧ curr.distance < UTURN_STEP_MAX_M then
      let prev_bear := bearingQ prev.start_location prev.end_location
      let curr_bear := bearingQ curr.start_location curr.end_location
      if (UTURN_BEARING_CHANGE : ℝ) < bearingDiff prev_bear curr_bear then some i
      else findUturn (i + 1) (curr :: rest)
    else findUturn (i + 1) (curr :: rest)
  | _ => none

/-- The flattened step list of a route (`steps` in `_validate_route`). -/
def routeSteps (route : Route) : List Step := route.legs.flatMap Leg.steps

/-- The highway-fraction check of `_validate_route`. -/
def highwayCheck (route : Route) : List Issue :=
  let steps := routeSteps route
  let total_distance := (route.legs.map Leg.distance).sum
  if 0 < total_distance then
    let highway_distance := ((steps.filter _is_highway_step).map Step.distance).sum
    let highway_pct : ℚ := (highway_distance : ℚ) / (total_distance : ℚ)
    if HIGHWAY_FRACTION_LIMIT < highway_pct then [Issue.highway highway_pct]
    else []
  else []

/-- The consecutive-step U-turn check of `_validate_route`. -/
noncomputable def uturnCheck (steps : List Step) : List Issue :=
  match findUturn 1 steps with
  | some i => [Issue.uturn i]
  | none => []

/-- The overview-polyline checks of `_validate_route` (overlap and
backtrack spurs, skipped for an absent overview). -/
noncomputable def overviewChecks (route : Route) : List Issue :=
  if route.overview_polyline ≠ [] then
    _check_polyline_overlap route.overview_polyline ++
      _check_backtrack_spurs route.overview_polyline
  else []

/-- The urban-density check of `_validate_route`. -/
def urbanCheck (steps : List Step) : List Issue :=
  if steps.isEmpty then []
  else
    let short_step_count :=
      (steps.filter fun s => s.distance < URBAN_SHORT_STEP_THRESHOLD_M).length
    let short_fraction : ℚ := (short_step_count : ℚ) / (steps.length : ℚ)
    if URBAN_SHORT_STEP_FRACTION_LIMIT < short_fraction then
      [Issue.urban short_fraction]
    else []

/-- Lean model of `_validate_route` (the four checks in source order). -/
noncomputable def _validate_route (result : List Route) : List Issue :=
  match result with
  | [] => [Issue.noRouteFromApi]
  | route :: _ =>
    highwayCheck route ++ uturnCheck (routeSteps route) ++
      overviewChecks route ++ urbanCheck (routeSteps route)

/-! ## Spur snapping -/

/-- The per-boundary body of `_detect_uturn_waypoints`: whether leg
boundary `i` is flagged (both adjacent steps exist, neither is
degenerate, and the approach/departure bearings differ by more than the
threshold). -/
noncomputable def uturnAtBoundary (legs : List Leg) (i : ℕ) : Bool :=
  match legs[i]?, legs[i + 1]? with
  | some incoming, some outgoing =>
    match incoming.steps.getLast?, outgoing.steps.head? with
    | some last_step, some first_step =>
      if last_step.start_location = last_step.end_location then false
      else if first_step.start_location = first_step.end_location then false
      else
        let approach := bearingQ last_step.start_location last_step.end_location
        let depart := bearingQ first_step.start_location first_step.end_location
        decide ((UTURN_BEARING_THRESHOLD : ℝ) < bearingDiff approach depart)
    | _, _ => false
  | _, _ => false

/-- Lean model of `_detect_uturn_waypoints`. -/
noncomputable def _detect_uturn_waypoints (directions_result : Route) : List ℕ :=
  (List.range (directions_result.legs.length - 1)).filter
    (uturnAtBoundary directions_result.legs)

/-- The `for step in range(1, max_steps)` walk of `_find_branch_point`,
carrying (last close approach point, last close departure point, walked
spur length). -/
noncomputable def branchLoop (approach_rev depart : List Point) (max_steps : ℕ)
    (step : ℕ) (la ld : Point) (len : ℝ) : Point × Point × ℝ :=
  if h : max_steps ≤ step then (la, ld, len)
  else
    let a_pt := approach_rev.getD step (0, 0)
    let d_pt := depart.getD step (0, 0)
    if havQ a_pt d_pt < (SPUR_CORRIDOR_WIDTH_M : ℝ) then
      branchLoop approach_rev depart max_steps (step + 1) a_pt d_pt
        (len + havQ (approach_rev.getD (step - 1) (0, 0)) a_pt)
    else (la, ld, len)
termination_by max_steps - step
decreasing_by omega

/-- Lean model of `_find_branch_point`. -/
noncomputable def _find_branch_point (directions_result : Route)
    (waypoint_idx : ℕ) : Option Point :=
  let legs := directions_result.legs
  if legs.length ≤ waypoint_idx + 1 then none
  else
    match legs[waypoint_idx]?, legs[waypoint_idx + 1]? with
    | some approach_leg, some depart_leg =>
      let approach_pts := _decode_leg_polyline approach_leg
      let depart_pts := _decode_leg_polyline depart_leg
      if approach_pts.length < 2 ∨ depart_pts.length < 2 then none
      else
        let approach_rev := approach_pts.reverse
        let max_steps := min approach_rev.length depart_pts.length
        let res := branchLoop approach_rev depart_pts max_steps 1
          (approach_rev.getD 0 (0, 0)) (depart_pts.getD 0 (0, 0)) 0
        if res.2.2 < (SPUR_SNAP_MIN_LENGTH_M : ℝ) then none
        else some ((res.1.1 + res.2.1.1) / 2, (res.1.2 + res.2.1.2) / 2)
    | _, _ => none

/-- Modelled from the specification text of the branch-point search, for
comparison with the implementation: walk the reversed approach leg and
the departure leg simultaneously from the waypoint outward; the walk
ends at the first pair of corresponding points lying at least the
corridor width apart (or when either leg runs out of points); the
last close pair before that is the branch point, the walked spur length
is the approach-side distance up to it, and spurs shorter than the
minimum snap length yield no branch point. -/
noncomputable def specWalkEnd (approach_rev depart : List Point)
    (max_steps : ℕ) : ℕ :=
  match (List.range' 1 (max_steps - 1)).find?
      (fun k => decide (¬ havQ (approach_rev.getD k (0, 0)) (depart.getD k (0, 0)) <
        (SPUR_CORRIDOR_WIDTH_M : ℝ))) with
  | some k => k
  | none => max_steps

/-- The consecutive approach-side distances walked outward from the
waypoint (the spur-length increments of the walk). -/
noncomputable def approachDists (approach_rev : List Point) : List ℝ :=
  (approach_rev.zip approach_rev.tail).map fun (a, b) => havQ a b

/-- Spec-modelled closed form of the whole branch-point search (the
comparison target of the refinement proof for `_find_branch_point`). -/
noncomputable def specBranchPoint (directions_result : Route)
    (waypoint_idx : ℕ) : Option Point :=
  let legs := directions_result.legs
  if legs.length ≤ waypoint_idx + 1 then none
  else
    match legs[waypoint_idx]?, legs[waypoint_idx + 1]? with
    | some approach_leg, some depart_leg =>
      let approach_pts := _decode_leg_polyline approach_leg
      let depart_pts := _decode_leg_polyline depart_leg
      if approach_pts.length < 2 ∨ depart_pts.length < 2 then none
      else
        let approach_rev := approach_pts.reverse
        let max_steps := min approach_rev.length depart_pts.length
        let lastClose := specWalkEnd approach_rev depart_pts max_steps - 1
        let la := approach_rev.getD lastClose (0, 0)
        let ld := depart_pts.getD lastClose (0, 0)
        let spurLen : ℝ := ((approachDists approach_rev).take lastClose).sum
        if spurLen < (SPUR_SNAP_MIN_LENGTH_M : ℝ) then none
        else some ((la.1 + ld.1) / 2, (la.2 + ld.2) / 2)
    | _, _ => none

/-- One iteration of the `for idx in uturn_indices` loop of
`_snap_spur_waypoints` (skip out-of-range indices; on a found branch
point, overwrite the waypoint and record the index). -/
noncomputable def snapStep (directions_result : Route)
    (acc : List Point × List ℕ) (idx : ℕ) : List Point × List ℕ :=
  if acc.1.length ≤ idx then acc
  else
    match _find_branch_point directions_result idx with
    | some branch => (acc.1.set idx branch, acc.2 ++ [idx])
    | none => acc

/-- Lean model of `_snap_spur_waypoints`. -/
noncomputable def _snap_spur_waypoints (directions_result : Route)
    (waypoints : List Point) : List Point × List ℕ :=
  let uturn_indices := _detect_uturn_waypoints directions_result
  if uturn_indices = [] then (waypoints, [])
  else uturn_indices.foldl (snapStep directions_result) (waypoints, [])

/-! ## Orchestration (`generate` and its collaborators)

External collaborators are oracles: the LLM and the Directions engine
are consumed by call index (their request payloads, prompt strings
included, do not influence the oracle), Street View metadata by queried
coordinate.  Raised Python exceptions are `Except` errors; a `none`
Directions reply models a raised `googlemaps` exception, `some []` an
empty result list. -/

/-- Rider preferences (the fields `route_generation.py` reads). -/
structure RoutePreferences where
  start_location : List Char
  distance_km : ℤ
  curviness : ℤ
  scenery_type : List Char
  loop : Bool

/-- The errors `generate` and its helpers can raise. -/
inductive GenError where
  /-- `ValueError("start_location must not be empty.")` -/
  | emptyStartLocation : GenError
  /-- `ValueError(f"Could not geocode location: ...")` -/
  | couldNotGeocode : GenError
  /-- `ValueError("Claude did not return valid waypoint JSON.")` -/
  | invalidWaypointJson : GenError
  /-- `RuntimeError("Directions API returned no result after retries.")` -/
  | noResultAfterRetries : GenError

/-- The region label `_reverse_geocode_region` produces: a formatted
address from the provider, or the `f"{lat},{lng}"` fallback. -/
inductive RegionLabel where
  | address (s : List Char) : RegionLabel
  | coords (lat lng : ℚ) : RegionLabel

/-- The route summary `_extract_route_summary` formats is a pure
function of the optional directions result, and its text is only ever
interpolated into prompts and the debug trace (which the oracles
ignore), so the model carries the result itself as the summary value
(`none` plays the role of the empty-string summary). -/
abbrev RouteSummary : Type := Option Route

/-- Lean model of `_extract_route_summary` under the summary-as-data
convention above. -/
def _extract_route_summary (directions_result : Option Route) : RouteSummary :=
  directions_result

/-- A prompt, modelled as the data the corresponding format string
interpolates (see the module conventions). -/
inductive Prompt where
  | waypointGeneration (region : RegionLabel) (start : Point)
      (prefs : RoutePreferences) (n_waypoints : ℕ)
      (previous_issues : List Issue) (route_summary : RouteSummary) : Prompt
  | fix (issues : List Issue) (prefs : RoutePreferences)
      (current : List Point) (route_summary : RouteSummary) : Prompt
  | narrative (distance_km : ℚ) (duration_min : ℤ)
      (prefs : RoutePreferences) (start_address : List Char)
      (n_waypoints : ℕ) : Prompt

/-- Debug record of one snapped waypoint (`SnappedWaypointInfo`). -/
structure SnappedWaypointInfo where
  index : ℕ
  from_lat : ℚ
  from_lng : ℚ
  to_lat : ℚ
  to_lng : ℚ

/-- Debug record of one attempt (`DebugAttempt`). -/
structure DebugAttempt where
  attempt : ℕ
  issues : List Issue
  route_summary : RouteSummary
  waypoints : List Point
  prompt_type : Option (List Char) := none
  prompt_sent : Option Prompt := none

/-- Debug accumulator (`GenerationDebug`). -/
structure GenerationDebug where
  attempts : ℕ := 0
  passed_validation : Bool := false
  original_waypoints : List Point := []
  final_waypoints : List Point := []
  snapped_waypoints : List SnappedWaypointInfo := []
  validation_history : List DebugAttempt := []
  route_summary : RouteSummary := none
  waypoint_generation_prompt : Option Prompt := none
  narrative_prompt : Option Prompt := none
  fix_prompts : List Prompt := []

/-- A Street View Static API URL, as the query parameters interpolated
into it (size, fov and pitch are the fixed constants). -/
structure StreetViewUrl where
  lat : ℚ
  lng : ℚ
  heading : ℝ

/-- The final result (`RouteResult`; the there-and-back extras stay at
their defaults in this module). -/
structure RouteResult where
  encoded_polyline : List ℕ
  distance_km : ℚ
  duration_min : ℤ
  waypoints : List Point
  narrative : List Char
  street_view_urls : List StreetViewUrl
  debug : GenerationDebug

/-- The oracle environment standing for the mocked external clients. -/
structure Env where
  /-- Forward geocode: the result list location fields (first is used). -/
  geocode_results : List Point
  /-- Reverse geocode: formatted addresses; `none` models a raised
  exception, which `_reverse_geocode_region` absorbs. -/
  reverse_geocode : Option (List (List Char))
  /-- Text of the nth LLM completion, by call order. -/
  llm : ℕ → List Char
  /-- The nth Directions call: `none` a raised exception, `some []` an
  empty result. -/
  directions : ℕ → Option (List Route)
  /-- Street View metadata at a coordinate: `some` panorama location on
  coverage, `none` for no coverage or a network error. -/
  street_view : Point → Option Point

/-- Lean model of `_geocode`. -/
def _geocode (geocode_results : List Point) (location : List Char) :
    Except GenError Point :=
  let location := pyStrip location
  if location = [] then .error .emptyStartLocation
  else
    let parts := location.splitOn ','
    let direct : Option Point :=
      if parts.length = 2 then
        match pyFloat (pyStrip (parts.getD 0 [])),
            pyFloat (pyStrip (parts.getD 1 [])) with
        | some lat, some lng => some (lat, lng)
        | _, _ => none
      else none
    match direct with
    | some p => .ok p
    | none =>
      match geocode_results with
      | [] => .error .couldNotGeocode
      | p :: _ => .ok p

/-- Lean model of `_reverse_geocode_region`. -/
def _reverse_geocode_region (reverse : Option (List (List Char)))
    (lat lng : ℚ) : RegionLabel :=
  match reverse with
  | some (addr :: _) => .address addr
  | _ => .coords lat lng

/-- Python `float(x)` applied to a parsed JSON value, as the waypoint
comprehension does: numbers pass through, strings go through the float
grammar, booleans coerce as Python ints; `None`, arrays and objects
raise `TypeError`. -/
def pyFloatOfJson : Json → Option ℚ
  | .num q => some q
  | .str s => pyFloat s
  | .bool b => some (if b then 1 else 0)
  | _ => none

/-- Python dict lookup on parsed JSON object fields (`json.loads` keeps
the last binding of a repeated key). -/
def dictGet (fields : List (List Char × Json)) (key : List Char) : Option Json :=
  (fields.reverse.find? fun kv => kv.1 = key).map (·.2)

/-- The `[(float(p["lat"]), float(p["lng"])) for p in parsed]`
comprehension: `none` models the caught `KeyError`/`TypeError`/
`ValueError` that makes the caller fall back. -/
def waypointPairs (parsed : List Json) : Option (List Point) :=
  parsed.mapM fun p =>
    match p with
    | .obj fields =>
      match dictGet fields "lat".data, dictGet fields "lng".data with
      | some la, some lo =>
        match pyFloatOfJson la, pyFloatOfJson lo with
        | some a, some b => some ((a, b) : Point)
        | _, _ => none
      | _, _ => none
    | _ => none

/-- Lean model of `_generate_waypoints`; `reply` is the LLM completion
the call obtains from the oracle. -/
def _generate_waypoints (reply : List Char) (start : Point)
    (region : RegionLabel) (prefs : RoutePreferences)
    (previous_issues : List Issue := [])
    (route_summary : RouteSummary := none) :
    Except GenError (List Point × Prompt) :=
  let n_waypoints :=
    if prefs.loop then LOOP_WAYPOINT_COUNT else ONEWAY_WAYPOINT_COUNT
  let prompt := Prompt.waypointGeneration region start prefs n_waypoints
    previous_issues route_summary
  let raw := pyStrip reply
  match _extract_json_array raw with
  | some parsed =>
    match waypointPairs parsed with
    | some pts => .ok (pts, prompt)
    | none => .error .invalidWaypointJson
  | none => .error .invalidWaypointJson

/-- Lean model of `_fix_waypoints`; `reply` is the LLM completion. -/
def _fix_waypoints (reply : List Char) (current : List Point)
    (issues : List Issue) (prefs : RoutePreferences)
    (route_summary : RouteSummary := none) : List Point × Prompt :=
  let prompt := Prompt.fix issues prefs current route_summary
  let raw := pyStrip reply
  match _extract_json_array raw with
  | some parsed =>
    if parsed.length = current.length then
      match waypointPairs parsed with
      | some pts => (pts, prompt)
      | none => (current, prompt)
    else (current, prompt)
  | none => (current, prompt)

/-- The evenly-spaced key-waypoint pick of `_build_and_validate`. -/
def keyWaypoints (waypoints : List Point) : List Point :=
  let n := waypoints.length
  if n ≤ STREET_VIEW_IMAGE_COUNT then waypoints
  else
    (List.range STREET_VIEW_IMAGE_COUNT).map fun i =>
      waypoints.getD
        (pyRound ((i : ℚ) * ((n : ℚ) - 1) / ((STREET_VIEW_IMAGE_COUNT : ℚ) - 1))).toNat
        (0, 0)

/-- Lean model of `_build_and_validate`: takes the index of the next
Directions call and returns it advanced past the calls made (one, plus
one more when spur snapping re-requests). -/
noncomputable def _build_and_validate (env : Env) (dirIdx : ℕ) (start : Point)
    (waypoints : List Point) (prefs : RoutePreferences) :
    (Option Route × List Issue × List SnappedWaypointInfo) × ℕ :=
  let intermediate := if prefs.loop then waypoints else waypoints.dropLast
  match env.directions dirIdx with
  | none => ((none, [Issue.directionsApiError], []), dirIdx + 1)
  | some [] => ((none, [Issue.noRoutesReturned], []), dirIdx + 1)
  | some (r0 :: rest) =>
    let afterSnap :
        List Route × List Point × List SnappedWaypointInfo × ℕ :=
      if 1 < r0.legs.length then
        let snap := _snap_spur_waypoints r0 intermediate
        if snap.2 ≠ [] then
          let snapped_info := snap.2.map fun idx =>
            let old := intermediate.getD idx (0, 0)
            let new := snap.1.getD idx (0, 0)
            SnappedWaypointInfo.mk idx old.1 old.2 new.1 new.2
          match env.directions (dirIdx + 1) with
          | some (s0 :: srest) =>
            let waypoints2 :=
              if prefs.loop then snap.1 else
                snap.1 ++ (waypoints.getLast?.map ([·])).getD []
            (s0 :: srest, waypoints2, snapped_info, dirIdx + 2)
          | _ => (r0 :: rest, waypoints, snapped_info, dirIdx + 2)
        else (r0 :: rest, waypoints, [], dirIdx + 1)
      else (r0 :: rest, waypoints, [], dirIdx + 1)
    match afterSnap with
    | (result, waypoints2, snapped_info, dirIdx2) =>
      let issues := _validate_route result
      match result with
      | [] => ((none, issues, snapped_info), dirIdx2)
      | route0 :: _ =>
        let route0 := { route0 with key_waypoints := some (keyWaypoints waypoints2) }
        ((some route0, issues, snapped_info), dirIdx2)

/-- The per-attempt loop state of `generate` (steps 3-4). -/
structure LoopState where
  selected : List Point
  directions_result : Option Route := none
  last_issues : List Issue := []
  all_snapped : List SnappedWaypointInfo := []
  llmIdx : ℕ
  dirIdx : ℕ := 0
  validation_history : List DebugAttempt := []
  fix_prompts : List Prompt := []

/-- One textual tag of `prompt_type` in the debug history. -/
def regenerateTag : List Char := "regenerate".data

/-- One textual tag of `prompt_type` in the debug history. -/
def fixTag : List Char := "fix".data

/-- The `for attempt in range(MAX_ROUTE_ATTEMPTS)` loop of `generate`. -/
noncomputable def attemptLoop (env : Env) (prefs : RoutePreferences)
    (start : Point) (region : RegionLabel) (attempt : ℕ)
    (st : LoopState) : Except GenError LoopState :=
  if h : MAX_ROUTE_ATTEMPTS ≤ attempt then .ok st
  else
    let bv := _build_and_validate env st.dirIdx start st.selected prefs
    let dr := bv.1.1
    let issues := bv.1.2.1
    let route_summary := _extract_route_summary dr
    let record : DebugAttempt :=
      { attempt := attempt + 1, issues := issues,
        route_summary := route_summary, waypoints := st.selected }
    let st := { st with
      directions_result := dr, last_issues := issues,
      all_snapped := st.all_snapped ++ bv.1.2.2, dirIdx := bv.2,
      validation_history := st.validation_history ++ [record] }
    if issues = [] then .ok st
    else if attempt < MAX_ROUTE_ATTEMPTS - 1 then
      if FRESH_REGEN_ATTEMPT ≤ attempt + 1 then
        match _generate_waypoints (env.llm st.llmIdx) start region prefs
            issues route_summary with
        | .error e => .error e
        | .ok (selected2, regen_prompt) =>
          let record2 := { record with
            prompt_type := some regenerateTag, prompt_sent := some regen_prompt }
          attemptLoop env prefs start region (attempt + 1)
            { st with
              selected := selected2,
              llmIdx := st.llmIdx + 1,
              fix_prompts := st.fix_prompts ++ [regen_prompt],
              validation_history := st.validation_history.dropLast ++ [record2] }
      else
        let fix := _fix_waypoints (env.llm st.llmIdx) st.selected issues prefs
          route_summary
        let record2 := { record with
          prompt_type := some fixTag, prompt_sent := some fix.2 }
        attemptLoop env prefs start region (attempt + 1)
          { st with
            selected := fix.1,
            llmIdx := st.llmIdx + 1,
            fix_prompts := st.fix_prompts ++ [fix.2],
            validation_history := st.validation_history.dropLast ++ [record2] }
    else .ok st
termination_by MAX_ROUTE_ATTEMPTS - attempt
decreasing_by all_goals omega

/-- Lean model of `_check_street_view_coverage`. -/
def _check_street_view_coverage (sv : Point → Option Point) (p : Point) :
    Bool × Point :=
  match sv p with
  | some loc => (true, loc)
  | none => (false, p)

/-- The strictly-improving nearest-point scan shared by
`_compute_road_heading` and `_find_street_view_along_route`
(`best_dist` starts at infinity, modelled by `none`). -/
noncomputable def nearestIdxAux (p : Point) :
    List Point → ℕ → ℕ → Option ℝ → ℕ
  | [], _, best, _ => best
  | q :: rest, i, best, bestD =>
    let d := havQ p q
    match bestD with
    | none => nearestIdxAux p rest (i + 1) i (some d)
    | some bd =>
      if d < bd then nearestIdxAux p rest (i + 1) i (some d)
      else nearestIdxAux p rest (i + 1) best (some bd)

/-- Index of the polyline point nearest to `p` (first strict minimum). -/
noncomputable def nearestIdx (p : Point) (pts : List Point) : ℕ :=
  nearestIdxAux p pts 0 0 none

/-- Lean model of `_compute_road_heading`. -/
noncomputable def _compute_road_heading (lat lng : ℚ)
    (polyline_points : List Point) : ℝ :=
  if polyline_points.length < 2 then 0
  else
    let best_idx := nearestIdx (lat, lng) polyline_points
    let pair : Point × Point :=
      if best_idx < polyline_points.length - 1 then
        (polyline_points.getD best_idx (0, 0),
          polyline_points.getD (best_idx + 1) (0, 0))
      else
        (polyline_points.getD (best_idx - 1) (0, 0),
          polyline_points.getD best_idx (0, 0))
    bearingQ pair.1 pair.2

/-- One direction of the outward walk of
`_find_street_view_along_route`; the fuel (more than the point count)
stands in for the strictly monotone index of the source loop. -/
noncomputable def svWalk (sv : Point → Option Point) (pts : List Point)
    (direction : ℤ) : ℕ → ℕ → ℝ → ℝ → Option Point
  | 0, _, _, _ => none
  | fuel + 1, idx, acc, lastChecked =>
    if pts.length - 1 ≤ idx then none
    else
      let next : ℤ := (idx : ℤ) + direction
      if ¬ (0 ≤ next ∧ next < (pts.length : ℤ)) then none
      else
        let nidx := next.toNat
        let seg := havQ (pts.getD idx (0, 0)) (pts.getD nidx (0, 0))
        let acc2 := acc + seg
        if (STREET_VIEW_SEARCH_RADIUS_M : ℝ) < acc2 then none
        else if (STREET_VIEW_SEARCH_INTERVAL_M : ℝ) ≤ acc2 - lastChecked then
          match sv (pts.getD nidx (0, 0)) with
          | some loc => some loc
          | none => svWalk sv pts direction fuel nidx acc2 acc2
        else svWalk sv pts direction fuel nidx acc2 lastChecked

/-- Lean model of `_find_street_view_along_route`. -/
noncomputable def _find_street_view_along_route (sv : Point → Option Point)
    (p : Point) (pts : List Point) : Bool × Point :=
  if pts = [] then (false, p)
  else
    let best := nearestIdx p pts
    match svWalk sv pts 1 (pts.length + 1) best 0 0 with
    | some loc => (true, loc)
    | none =>
      match svWalk sv pts (-1) (pts.length + 1) best 0 0 with
      | some loc => (true, loc)
      | none => (false, p)

/-- Lean model of `_get_street_view_urls`. -/
noncomputable def _get_street_view_urls (sv : Point → Option Point)
    (waypoints : List Point) (overview_polyline : List ℕ := []) :
    List StreetViewUrl :=
  let polyline_points :=
    if overview_polyline ≠ [] then (_decode_polyline overview_polyline).getD []
    else []
  (waypoints.take STREET_VIEW_IMAGE_COUNT).foldl
    (fun urls wp =>
      let c1 := _check_street_view_coverage sv wp
      let c2 :=
        if ¬ c1.1 ∧ polyline_points ≠ [] then
          _find_street_view_along_route sv wp polyline_points
        else c1
      if ¬ c2.1 then urls
      else
        urls ++ [{ lat := c2.2.1,
                   lng := c2.2.2,
                   heading := _compute_road_heading c2.2.1 c2.2.2 polyline_points }])
    []

/-- Lean model of `_generate_narrative`; `reply` is the LLM completion. -/
def _generate_narrative (reply : List Char) (directions_result : Route)
    (prefs : RoutePreferences) : List Char × Prompt :=
  let sums := _sum_legs directions_result
  let start_address :=
    match directions_result.legs.head? with
    | some leg => leg.start_address
    | none => prefs.start_location
  let n_waypoints := (directions_result.key_waypoints.getD []).length
  (pyStrip reply,
    Prompt.narrative sums.1 sums.2 prefs start_address n_waypoints)

/-- Python `round(x, 1)` (one decimal, ties to even), exact on `ℚ`. -/
def pyRound1 (q : ℚ) : ℚ := (pyRound (q * 10) : ℚ) / 10

/-- Lean model of `generate`: geocode, region label, initial waypoints,
the build-validate-repair loop, then narrative, Street View images and
the final `RouteResult`. -/
noncomputable def generate (env : Env) (prefs : RoutePreferences) :
    Except GenError RouteResult :=
  match _geocode env.geocode_results prefs.start_location with
  | .error e => .error e
  | .ok (start_lat, start_lng) =>
  let start_region := _reverse_geocode_region env.reverse_geocode start_lat start_lng
  match _generate_waypoints (env.llm 0) (start_lat, start_lng) start_region prefs with
  | .error e => .error e
  | .ok (selected, wp_gen_prompt) =>
  match attemptLoop env prefs (start_lat, start_lng) start_region 0
    { selected := selected, llmIdx := 1 } with
  | .error e => .error e
  | .ok st =>
  match st.directions_result with
  | none => .error .noResultAfterRetries
  | some directions_result =>
    let debug : GenerationDebug :=
      { attempts := st.validation_history.length,
        passed_validation := st.last_issues = [],
        original_waypoints := selected,
        final_waypoints := st.selected,
        snapped_waypoints := st.all_snapped,
        validation_history := st.validation_history,
        route_summary := _extract_route_summary (some directions_result),
        waypoint_generation_prompt := some wp_gen_prompt,
        fix_prompts := st.fix_prompts }
    let narr := _generate_narrative (env.llm st.llmIdx) directions_result prefs
    let debug := { debug with narrative_prompt := some narr.2 }
    let encoded_polyline := _build_detailed_polyline directions_result
    let street_view_urls := _get_street_view_urls env.street_view
      (directions_result.key_waypoints.getD (st.selected.take 3))
      encoded_polyline
    let sums := _sum_legs directions_result
    .ok
      { encoded_polyline := encoded_polyline,
        distance_km := pyRound1 sums.1,
        duration_min := sums.2,
        waypoints := st.selected,
        narrative := narr.1,
        street_view_urls := street_view_urls,
        debug := debug }

/-! ## Polyline codec round-trip -/

/-- Disjoint bitwise or is addition. -/
theorem lor_eq_add_of_and_eq_zero : ∀ a b : ℕ, a &&& b = 0 → a ||| b = a + b := by
  intro a
  induction a using Nat.binaryRec with
  | z => intro b _; simp
  | f abit m ih =>
    intro b h
    induction b using Nat.binaryRec with
    | z => simp
    | f bbit n _ =>
      rw [Nat.land_bit] at h
      rw [Nat.lor_bit]
      have h2 : (abit && bbit) = false ∧ m &&& n = 0 := by
        by_cases hb : (abit && bbit) = false
        · refine ⟨hb, ?_⟩
          simpa [Nat.bit, hb] using h
        · exfalso
          simp only [Bool.not_eq_false] at hb
          simp [Nat.bit, hb] at h
      have ih2 := ih n h2.2
      cases abit <;> cases bbit <;> simp_all [Nat.bit] <;> omega

/-- Accumulating a shifted value into a small accumulator is addition. -/
theorem lor_shiftLeft_eq_add {a x s : ℕ} (h : a < 2 ^ s) :
    a ||| (x <<< s) = a + x * 2 ^ s := by
  rw [lor_eq_add_of_and_eq_zero, Nat.shiftLeft_eq]
  apply Nat.eq_of_testBit_eq
  intro i
  rw [Nat.testBit_land, Nat.testBit_shiftLeft, Nat.zero_testBit]
  rcases lt_or_le i s with hi | hi
  · simp [Nat.not_le.mpr hi]
  · have : a.testBit i = false :=
      Nat.testBit_lt_two_pow
        (lt_of_lt_of_le h (Nat.pow_le_pow_right (by norm_num) hi))
    simp [this]

/-- The varint decoder inverts the varint encoder, from any accumulator
state consistent with the shift, for any sufficient fuel. -/
theorem decodeValue_encodeChunksAux :
    ∀ (fuel v : ℕ), v ≤ fuel → ∀ (rest : List ℕ) (shift acc : ℕ), acc < 2 ^ shift →
      decodeValue (encodeChunksAux fuel v ++ rest) shift acc =
        some (acc + v * 2 ^ shift, rest) := by
  intro fuel
  induction fuel with
  | zero =>
    intro v hv rest shift acc hacc
    interval_cases v
    simp [encodeChunksAux, decodeValue]
  | succ f ih =>
    intro v hv rest shift acc hacc
    rw [encodeChunksAux]
    by_cases hvlt : v < 0x20
    · simp only [hvlt, if_pos, List.cons_append, List.nil_append, decodeValue]
      have hb : v + 63 - 63 = v := by omega
      rw [hb]
      have hm : v &&& 0x1F = v := by
        have := Nat.and_pow_two_sub_one_eq_mod v 5
        norm_num at this
        omega
      rw [hm, lor_shiftLeft_eq_add hacc]
      simp [hvlt]
    · simp only [hvlt, if_neg, not_false_iff, List.cons_append, decodeValue]
      have hmod : v &&& 0x1F = v % 32 := Nat.and_pow_two_sub_one_eq_mod v 5
      have hb : (0x20 ||| (v &&& 0x1F)) + 63 - 63 = 32 + v % 32 := by
        rw [hmod]
        have : (32 : ℕ) ||| v % 32 = v % 32 + 32 := by
          have h32 : v % 32 < 2 ^ 5 := by
            have := Nat.mod_lt v (y := 32) (by norm_num)
            simpa using this
          have := lor_shiftLeft_eq_add (x := 1) (s := 5) h32
          simpa [Nat.lor_comm] using this
        omega
      rw [hb]
      have hb2 : (32 + v % 32) &&& 0x1F = v % 32 := by
        have h := Nat.and_pow_two_sub_one_eq_mod (32 + v % 32) 5
        norm_num at h
        omega
      rw [hb2]
      have hnotlt : ¬ (32 + v % 32 < 0x20) := by omega
      rw [if_neg hnotlt]
      have hacc2 : acc ||| (v % 32) <<< shift = acc + v % 32 * 2 ^ shift :=
        lor_shiftLeft_eq_add hacc
      rw [hacc2]
      have hsmall : acc + v % 32 * 2 ^ shift < 2 ^ (shift + 5) := by
        have h1 : v % 32 < 32 := Nat.mod_lt v (by norm_num)
        have h2 : (2 : ℕ) ^ (shift + 5) = 2 ^ shift * 32 := by ring
        nlinarith [Nat.two_pow_pos shift]
      have hdiv : v >>> 5 = v / 32 := by
        rw [Nat.shiftRight_eq_div_pow]
      rw [hdiv]
      rw [ih (v / 32) (by omega) rest (shift + 5) _ hsmall]
      congr 2
      have hsplit : v % 32 + 32 * (v / 32) = v := Nat.mod_add_div v 32
      have h2 : (2 : ℕ) ^ (shift + 5) = 2 ^ shift * 32 := by ring
      rw [h2]
      ring_nf
      nlinarith [hsplit]

/-- The varint decoder inverts the varint encoder. -/
theorem decodeValue_encodeChunks (v : ℕ) (rest : List ℕ) (shift acc : ℕ)
    (hacc : acc < 2 ^ shift) :
    decodeValue (encodeChunks v ++ rest) shift acc =
      some (acc + v * 2 ^ shift, rest) :=
  decodeValue_encodeChunksAux v v le_rfl rest shift acc hacc

/-- Zig-zag then unzig-zag is the identity on `ℤ`. -/
theorem unzigzag_zigzag (delta : ℤ) :
    unzigzag (if delta < 0 then (-(2 * delta) - 1).toNat else (2 * delta).toNat)
      = delta := by
  unfold unzigzag
  by_cases hd : delta < 0
  · simp only [hd, if_pos]
    have hmod : (-(2 * delta) - 1).toNat &&& 1 = (-(2 * delta) - 1).toNat % 2 :=
      Nat.and_pow_two_sub_one_eq_mod _ 1
    have hdiv : (-(2 * delta) - 1).toNat >>> 1 = (-(2 * delta) - 1).toNat / 2 := by
      rw [Nat.shiftRight_eq_div_pow]
    rw [hmod, hdiv]
    have h1 : (-(2 * delta) - 1).toNat % 2 = 1 := by omega
    rw [if_pos h1]
    omega
  · simp only [hd, if_neg, not_false_iff]
    have hmod : (2 * delta).toNat &&& 1 = (2 * delta).toNat % 2 :=
      Nat.and_pow_two_sub_one_eq_mod _ 1
    have hdiv : (2 * delta).toNat >>> 1 = (2 * delta).toNat / 2 := by
      rw [Nat.shiftRight_eq_div_pow]
    rw [hmod, hdiv]
    have h1 : (2 * delta).toNat % 2 = 0 := by omega
    rw [if_neg (by omega)]
    omega

/-- The encoded chunk list is never empty. -/
theorem encodeChunks_ne_nil (v : ℕ) : encodeChunks v ≠ [] := by
  unfold encodeChunks
  cases v with
  | zero => simp [encodeChunksAux]
  | succ n =>
    rw [encodeChunksAux]
    by_cases hv : n + 1 < 0x20 <;> simp [hv]

/-- One delta: decode of encode from state zero. -/
theorem decodeValue_encodeValue (delta : ℤ) (rest : List ℕ) :
    ∃ v, decodeValue (encodeValue delta ++ rest) 0 0 = some (v, rest) ∧
      unzigzag v = delta := by
  refine ⟨_, ?_, unzigzag_zigzag delta⟩
  unfold encodeValue
  have := decodeValue_encodeChunks
    (if delta < 0 then (-(2 * delta) - 1).toNat else (2 * delta).toNat)
    rest 0 0 (by norm_num)
  simpa using this

/-- The e5 quantisation a coordinate undergoes through the codec. -/
def e5round (q : ℚ) : ℚ := (pyRound (q * 100000) : ℚ) / 100000

/-- Decode inverts encode from any shared previous-point state and any
sufficient fuel, up to the e5 quantisation of each coordinate. -/
theorem decodePolylineAux_encodePolylineAux (pts : List (ℚ × ℚ)) :
    ∀ (fuel : ℕ) (plat plng : ℤ),
      (encodePolylineAux pts plat plng).length < fuel →
      decodePolylineAux fuel (encodePolylineAux pts plat plng) plat plng =
        some (pts.map fun p => (e5round p.1, e5round p.2)) := by
  induction pts with
  | nil =>
    intro fuel plat plng hf
    match fuel, hf with
    | f + 1, _ =>
      rw [encodePolylineAux]
      rfl
  | cons p rest ih =>
    intro fuel plat plng hf
    have henc : encodePolylineAux (p :: rest) plat plng =
        encodeValue (pyRound (p.1 * 100000) - plat) ++
          (encodeValue (pyRound (p.2 * 100000) - plng) ++
            encodePolylineAux rest (pyRound (p.1 * 100000)) (pyRound (p.2 * 100000))) := by
      rw [encodePolylineAux]
      simp [List.append_assoc]
    obtain ⟨v1, hv1, hz1⟩ := decodeValue_encodeValue (pyRound (p.1 * 100000) - plat)
      (encodeValue (pyRound (p.2 * 100000) - plng) ++
        encodePolylineAux rest (pyRound (p.1 * 100000)) (pyRound (p.2 * 100000)))
    obtain ⟨v2, hv2, hz2⟩ := decodeValue_encodeValue (pyRound (p.2 * 100000) - plng)
      (encodePolylineAux rest (pyRound (p.1 * 100000)) (pyRound (p.2 * 100000)))
    have hne : encodePolylineAux (p :: rest) plat plng ≠ [] := by
      rw [henc]
      unfold encodeValue
      simp [encodeChunks_ne_nil]
    obtain ⟨c, tl, hct⟩ := List.exists_cons_of_ne_nil hne
    have hlen1 : 1 ≤ (encodeValue (pyRound (p.1 * 100000) - plat)).length := by
      unfold encodeValue
      cases h : encodeChunks (if pyRound (p.1 * 100000) - plat < 0 then
          (-(2 * (pyRound (p.1 * 100000) - plat)) - 1).toNat
        else (2 * (pyRound (p.1 * 100000) - plat)).toNat) with
      | nil => exact absurd h (encodeChunks_ne_nil _)
      | cons a b => simp [h]
    have hlen2 : 1 ≤ (encodeValue (pyRound (p.2 * 100000) - plng)).length := by
      unfold encodeValue
      cases h : encodeChunks (if pyRound (p.2 * 100000) - plng < 0 then
          (-(2 * (pyRound (p.2 * 100000) - plng)) - 1).toNat
        else (2 * (pyRound (p.2 * 100000) - plng)).toNat) with
      | nil => exact absurd h (encodeChunks_ne_nil _)
      | cons a b => simp [h]
    match fuel, hf with
    | f + 1, hf =>
      rw [hct, decodePolylineAux, ← hct, henc, hv1]
      simp only [Option.some_bind]
      rw [hv2]
      simp only [Option.some_bind]
      rw [hz1, hz2]
      have hlat : plat + (pyRound (p.1 * 100000) - plat) = pyRound (p.1 * 100000) := by
        ring
      have hlng : plng + (pyRound (p.2 * 100000) - plng) = pyRound (p.2 * 100000) := by
        ring
      rw [hlat, hlng, ih f _ _ (by rw [henc] at hf; simp only [List.length_append] at hf; omega)]
      simp [e5round]

/-- Decode inverts encode, up to e5 quantisation per coordinate. -/
theorem decode_encode (pts : List (ℚ × ℚ)) :
    _decode_polyline (_encode_polyline pts) =
      some (pts.map fun p => (e5round p.1, e5round p.2)) := by
  unfold _decode_polyline _encode_polyline
  exact decodePolylineAux_encodePolylineAux pts _ 0 0 (by omega)

/-- Rounding is exact on a rational that is already an integer. -/
theorem pyRound_intCast (i : ℤ) : pyRound (i : ℚ) = i := by
  unfold pyRound
  simp

/-- The e5 quantisation fixes every 5-decimal rational. -/
theorem e5round_eq_self {q : ℚ} (h : ∃ i : ℤ, q = (i : ℚ) / 100000) :
    e5round q = q := by
  obtain ⟨i, rfl⟩ := h
  unfold e5round
  have : (i : ℚ) / 100000 * 100000 = (i : ℚ) := by
    field_simp
  rw [this, pyRound_intCast]

/-- C3: for every finite list of coordinate pairs already rounded to 5
decimal places, decoding the encoding reproduces the list exactly (in
particular within 2e-5 degrees per coordinate), and decoding the empty
string yields the empty sequence. -/
theorem claim_C3_polyline_roundtrip (pts : List (ℚ × ℚ))
    (h : ∀ p ∈ pts, (∃ i : ℤ, p.1 = (i : ℚ) / 100000) ∧
      (∃ j : ℤ, p.2 = (j : ℚ) / 100000)) :
    _decode_polyline (_encode_polyline pts) = some pts ∧
      _decode_polyline [] = some [] := by
  constructor
  · rw [decode_encode pts]
    congr 1
    induction pts with
    | nil => rfl
    | cons p rest ih =>
      have hp := h p (by simp)
      simp only [List.map_cons]
      rw [e5round_eq_self hp.1, e5round_eq_self hp.2]
      rw [ih fun q hq => h q (by simp [hq])]
  · rfl

/-- Witness for C3 at a concrete 5-decimal list. -/
theorem claim_C3_polyline_roundtrip_witness :
    (∀ p ∈ [((77 : ℚ)/2, (-601 : ℚ)/5), ((407 : ℚ)/10, (-2419 : ℚ)/20)],
      (∃ i : ℤ, p.1 = (i : ℚ) / 100000) ∧ (∃ j : ℤ, p.2 = (j : ℚ) / 100000)) ∧
    _decode_polyline (_encode_polyline
      [((77 : ℚ)/2, (-601 : ℚ)/5), ((407 : ℚ)/10, (-2419 : ℚ)/20)]) =
      some [((77 : ℚ)/2, (-601 : ℚ)/5), ((407 : ℚ)/10, (-2419 : ℚ)/20)] := by
  have hyp : ∀ p ∈ [((77 : ℚ)/2, (-601 : ℚ)/5), ((407 : ℚ)/10, (-2419 : ℚ)/20)],
      (∃ i : ℤ, p.1 = (i : ℚ) / 100000) ∧ (∃ j : ℤ, p.2 = (j : ℚ) / 100000) := by
    intro p hp
    simp only [List.mem_cons, List.not_mem_nil, or_false] at hp
    rcases hp with h | h
    · rw [h]
      exact ⟨⟨3850000, by norm_num⟩, ⟨-12020000, by norm_num⟩⟩
    · rw [h]
      exact ⟨⟨4070000, by norm_num⟩, ⟨-12095000, by norm_num⟩⟩
  exact ⟨hyp, (claim_C3_polyline_roundtrip _ hyp).1⟩

/-! ## C8: the detailed-polyline merge -/

/-- One merge step preserves the no-consecutive-duplicates invariant,
given a fragment with no internal consecutive duplicates. -/
theorem mergeStep_chain (acc sp : List Point)
    (hacc : List.Chain' (· ≠ ·) acc) (hsp : List.Chain' (· ≠ ·) sp) :
    List.Chain' (· ≠ ·)
      (acc ++ (if acc ≠ [] ∧ sp.head? = acc.getLast? then sp.tail else sp)) := by
  by_cases hcond : acc ≠ [] ∧ sp.head? = acc.getLast?
  · rw [if_pos hcond]
    rw [List.chain'_append]
    refine ⟨hacc, hsp.tail, ?_⟩
    intro x hx y hy
    rw [Option.mem_def] at hx hy
    match sp, hsp, hcond, hy with
    | a :: b :: sp2, hsp, hcond, hy =>
      have hab : a ≠ b := (List.chain'_cons.mp hsp).1
      have hax : a = x := by
        have h2 := hcond.2
        rw [hx] at h2
        simp only [List.head?_cons, Option.some.injEq] at h2
        exact h2
      simp only [List.tail_cons, List.head?_cons, Option.some.injEq] at hy
      rw [← hax, ← hy]
      exact hab
  · rw [if_neg hcond]
    rw [List.chain'_append]
    refine ⟨hacc, hsp, ?_⟩
    intro x hx y hy
    rw [Option.mem_def] at hx hy
    push_neg at hcond
    intro hxy
    have hne : acc ≠ [] := by
      intro h0
      rw [h0] at hx
      simp at hx
    apply hcond hne
    rw [hy, hx, hxy]

/-- One merge step preserves the invariant (wrapper over the decoded
fragment). -/
theorem mergeOne_chain (acc : List Point) (st : Step)
    (hacc : List.Chain' (· ≠ ·) acc)
    (hst : List.Chain' (· ≠ ·) ((_decode_polyline st.polyline).getD [])) :
    List.Chain' (· ≠ ·) (mergeOne acc st) := by
  unfold mergeOne
  by_cases h1 : st.polyline = []
  · rwa [if_pos h1]
  · rw [if_neg h1]
    show List.Chain' (· ≠ ·)
      (if (_decode_polyline st.polyline).getD [] = [] then acc
       else acc ++ (if acc ≠ [] ∧
          ((_decode_polyline st.polyline).getD []).head? = acc.getLast? then
            ((_decode_polyline st.polyline).getD []).tail
          else (_decode_polyline st.polyline).getD []))
    by_cases h2 : (_decode_polyline st.polyline).getD [] = []
    · rwa [if_pos h2]
    · rw [if_neg h2]
      exact mergeStep_chain acc _ hacc hst

/-- The fragment-merging fold keeps the no-consecutive-duplicates
invariant when every decoded fragment has none. -/
theorem mergeStepPoints_chain (steps : List Step)
    (h : ∀ step ∈ steps,
      List.Chain' (· ≠ ·) ((_decode_polyline step.polyline).getD [])) :
    List.Chain' (· ≠ ·) (mergeStepPoints steps) := by
  unfold mergeStepPoints
  suffices hgen : ∀ acc, List.Chain' (· ≠ ·) acc →
      List.Chain' (· ≠ ·) (steps.foldl mergeOne acc) by
    exact hgen [] List.chain'_nil
  induction steps with
  | nil => intro acc hacc; exact hacc
  | cons st rest ih =>
    intro acc hacc
    simp only [List.foldl_cons]
    apply ih
    · intro q hq
      exact h q (by simp [hq])
    · exact mergeOne_chain acc st hacc (h st (by simp))

/-- C8 (amended): for every directions result each of whose step
fragments decodes with no two consecutive equal points, the merged point
sequence `_build_detailed_polyline` encodes (built by dropping the first
point of a fragment when it equals the last point already merged) has no
two consecutive equal points. -/
theorem claim_C8_merge_no_consecutive_duplicates (r : Route)
    (h : ∀ leg ∈ r.legs, ∀ step ∈ leg.steps,
      List.Chain' (· ≠ ·) ((_decode_polyline step.polyline).getD [])) :
    List.Chain' (· ≠ ·) (mergeStepPoints (r.legs.flatMap Leg.steps)) := by
  apply mergeStepPoints_chain
  intro step hstep
  rw [List.mem_flatMap] at hstep
  obtain ⟨leg, hleg, hst⟩ := hstep
  exact h leg hleg step hst

/-- A step whose fragment decodes to the same point twice in a row. -/
def dupFragStep : Step :=
  { distance := 100, duration := 10, html_instructions := [],
    start_location := (1, 1), end_location := (1, 1),
    polyline := _encode_polyline [((1 : ℚ), (1 : ℚ)), ((1 : ℚ), (1 : ℚ))] }

/-- A single-leg directions result carrying that step. -/
def dupFragRoute : Route :=
  { overview_polyline := [],
    legs := [{ distance := 100, duration := 10, start_address := [],
               end_address := [], steps := [dupFragStep] }] }

/-- Helper: the duplicated fragment decodes to the duplicated pair. -/
theorem dupFrag_decodes :
    (_decode_polyline dupFragStep.polyline).getD [] =
      [((1 : ℚ), (1 : ℚ)), ((1 : ℚ), (1 : ℚ))] := by
  show (_decode_polyline (_encode_polyline
    [((1 : ℚ), (1 : ℚ)), ((1 : ℚ), (1 : ℚ))])).getD [] = _
  rw [decode_encode]
  have h1 : e5round (1 : ℚ) = 1 := e5round_eq_self ⟨100000, by norm_num⟩
  simp [h1]

/-- C8 counterexample: on a directions result whose one step fragment
itself repeats a point, the merged sequence `_build_detailed_polyline`
builds does contain two consecutive equal points, so the claim as stated
(no two consecutive points ever equal) is false on the code. -/
theorem claim_C8_counterexample :
    ¬ List.Chain' (· ≠ ·)
        (mergeStepPoints (dupFragRoute.legs.flatMap Leg.steps)) := by
  have hm : mergeStepPoints (dupFragRoute.legs.flatMap Leg.steps) =
      [((1 : ℚ), (1 : ℚ)), ((1 : ℚ), (1 : ℚ))] := by
    show mergeStepPoints [dupFragStep] = _
    have hnonnil : dupFragStep.polyline ≠ [] := by
      show _encode_polyline [((1 : ℚ), (1 : ℚ)), ((1 : ℚ), (1 : ℚ))] ≠ []
      unfold _encode_polyline encodePolylineAux
      simp [encodeValue, encodeChunks_ne_nil]
    unfold mergeStepPoints
    simp only [List.foldl_cons, List.foldl_nil]
    unfold mergeOne
    rw [if_neg hnonnil, dupFrag_decodes]
    simp
  rw [hm]
  simp [List.chain'_cons]

/-- A clean two-step leg whose fragments share only the boundary point. -/
def twoStepLegC8 : Leg :=
  { distance := 100, duration := 10, start_address := [], end_address := [],
    steps :=
      [{ distance := 50, duration := 5, html_instructions := [],
         start_location := ((0 : ℚ), (0 : ℚ)),
         end_location := ((1 : ℚ), (1 : ℚ)),
         polyline := _encode_polyline [(0, 0), (1, 1)] },
       { distance := 50, duration := 5, html_instructions := [],
         start_location := ((1 : ℚ), (1 : ℚ)),
         end_location := ((2 : ℚ), (2 : ℚ)),
         polyline := _encode_polyline [(1, 1), (2, 2)] }] }

/-- The corresponding single-route directions result. -/
def twoStepRouteC8 : Route :=
  { overview_polyline := [], legs := [twoStepLegC8] }

/-- Helper: small integral points round-trip exactly through the codec. -/
theorem decode_encode_int_pair (a b c d : ℤ) :
    (_decode_polyline (_encode_polyline
      [((a : ℚ), (b : ℚ)), ((c : ℚ), (d : ℚ))])).getD [] =
      [((a : ℚ), (b : ℚ)), ((c : ℚ), (d : ℚ))] := by
  rw [decode_encode]
  have h : ∀ z : ℤ, e5round (z : ℚ) = (z : ℚ) := fun z =>
    e5round_eq_self ⟨z * 100000, by push_cast; ring⟩
  simp [h]

/-- Witness for the amended C8 theorem on a concrete two-step result
with a shared boundary point. -/
theorem claim_C8_merge_witness :
    (∀ leg ∈ twoStepRouteC8.legs, ∀ step ∈ leg.steps,
      List.Chain' (· ≠ ·) ((_decode_polyline step.polyline).getD [])) ∧
    List.Chain' (· ≠ ·)
      (mergeStepPoints (twoStepRouteC8.legs.flatMap Leg.steps)) := by
  have hfrag : ∀ leg ∈ twoStepRouteC8.legs, ∀ step ∈ leg.steps,
      List.Chain' (· ≠ ·) ((_decode_polyline step.polyline).getD []) := by
    intro leg hleg step hstep
    simp only [twoStepRouteC8, List.mem_cons, List.not_mem_nil, or_false] at hleg
    subst hleg
    simp only [twoStepLegC8, List.mem_cons, List.not_mem_nil, or_false] at hstep
    rcases hstep with h | h <;> subst h
    · show List.Chain' (· ≠ ·) ((_decode_polyline (_encode_polyline
        [((0 : ℚ), (0 : ℚ)), ((1 : ℚ), (1 : ℚ))])).getD [])
      rw [show ((0 : ℚ), (0 : ℚ)) = (((0 : ℤ) : ℚ), ((0 : ℤ) : ℚ)) by norm_num,
        show ((1 : ℚ), (1 : ℚ)) = (((1 : ℤ) : ℚ), ((1 : ℤ) : ℚ)) by norm_num,
        decode_encode_int_pair]
      simp only [List.chain'_cons, List.chain'_singleton, and_true, ne_eq,
        Prod.mk.injEq]
      norm_num
    · show List.Chain' (· ≠ ·) ((_decode_polyline (_encode_polyline
        [((1 : ℚ), (1 : ℚ)), ((2 : ℚ), (2 : ℚ))])).getD [])
      rw [show ((1 : ℚ), (1 : ℚ)) = (((1 : ℤ) : ℚ), ((1 : ℤ) : ℚ)) by norm_num,
        show ((2 : ℚ), (2 : ℚ)) = (((2 : ℤ) : ℚ), ((2 : ℤ) : ℚ)) by norm_num,
        decode_encode_int_pair]
      simp only [List.chain'_cons, List.chain'_singleton, and_true, ne_eq,
        Prod.mk.injEq]
      norm_num
  exact ⟨hfrag, claim_C8_merge_no_consecutive_duplicates _ hfrag⟩

/-! ## C2: forgiving JSON-array extraction -/

/-- Whether a parsed JSON value is an object. -/
def isObjJson : Json → Bool
  | .obj _ => true
  | _ => false

/-- Whether a text parses (as a whole) as a non-empty JSON array all of
whose elements are objects. -/
def parsesAsObjArray (s : List Char) : Bool :=
  match pyJsonLoads s with
  | some (Json.arr l) => ¬ l.isEmpty ∧ l.all isObjJson
  | _ => false

/-- The C2 counterexample text: two well-formed object arrays separated
by junk. -/
def cexC2 : List Char := "[\x7b\x22a\x22: 1\x7d] x [\x7b\x22a\x22: 2\x7d]".data

/-- C2 (amended): `_extract_json_array` returns the parse of the whole
stripped text when that is a JSON array; otherwise it parses the single
greedy span running from the first `[` to the last `]` of the stripped
text, returning that parse when it is a JSON array; it returns `none`
when neither parses as an array, even if the text contains some shorter
well-formed JSON array substring. -/
theorem claim_C2_extract_characterisation (text : List Char) :
    (∀ l, pyJsonLoads (pyStrip text) = some (Json.arr l) →
      _extract_json_array text = some l) ∧
    ((∀ m, pyJsonLoads (pyStrip text) ≠ some (Json.arr m)) →
      ∀ span, reSearchBracketSpan (pyStrip text) = some span →
        ∀ l, pyJsonLoads span = some (Json.arr l) →
          _extract_json_array text = some l) ∧
    ((∀ m, pyJsonLoads (pyStrip text) ≠ some (Json.arr m)) →
      (∀ span ∈ reSearchBracketSpan (pyStrip text),
        ∀ m, pyJsonLoads span ≠ some (Json.arr m)) →
      _extract_json_array text = none) := by
  refine ⟨?_, ?_, ?_⟩
  · intro l hl
    unfold _extract_json_array
    simp only [hl]
  · intro hwhole span hspan l hl
    unfold _extract_json_array
    simp only []
    cases hw : pyJsonLoads (pyStrip text) with
    | none => simp only [hspan, hl]
    | some v =>
      cases v with
      | arr m => exact absurd hw (hwhole m)
      | null => simp only [hspan, hl]
      | bool b => simp only [hspan, hl]
      | num q => simp only [hspan, hl]
      | str s2 => simp only [hspan, hl]
      | obj fs => simp only [hspan, hl]
  · intro hwhole hspans
    unfold _extract_json_array
    simp only []
    have hrest : (match reSearchBracketSpan (pyStrip text) with
        | none => (none : Option (List Json))
        | some span =>
          match pyJsonLoads span with
          | some (Json.arr l) => some l
          | _ => none) = none := by
      cases hs : reSearchBracketSpan (pyStrip text) with
      | none => rfl
      | some span =>
        have := hspans span (by rw [hs]; rfl)
        cases hp : pyJsonLoads span with
        | none => simp only [hp]
        | some v =>
          cases v with
          | arr m => exact absurd hp (this m)
          | null => simp only [hp]
          | bool b => simp only [hp]
          | num q => simp only [hp]
          | str s2 => simp only [hp]
          | obj fs => simp only [hp]
    cases hw : pyJsonLoads (pyStrip text) with
    | none => exact hrest
    | some v =>
      cases v with
      | arr m => exact absurd hw (hwhole m)
      | null => exact hrest
      | bool b => exact hrest
      | num q => exact hrest
      | str s2 => exact hrest
      | obj fs => exact hrest

/-- C2 counterexample: the text holds a well-formed JSON array substring
whose elements are objects, yet `_extract_json_array` returns `none`
(the greedy first-bracket-to-last-bracket span fails to parse), so the
claim as stated is false on the code. -/
theorem claim_C2_counterexample :
    (∃ sub : List Char, sub <:+: cexC2 ∧ parsesAsObjArray sub = true) ∧
      _extract_json_array cexC2 = none := by
  constructor
  · refine ⟨"[\x7b\x22a\x22: 1\x7d]".data, ⟨[], " x [\x7b\x22a\x22: 2\x7d]".data, rfl⟩, ?_⟩
    rfl
  · rfl

/-- Witness for the amended C2 theorem: the whole-text clause applied at
a clean array literal. -/
theorem claim_C2_extract_witness :
    pyJsonLoads (pyStrip "[true]".data) = some (Json.arr [Json.bool true]) ∧
      _extract_json_array "[true]".data = some [Json.bool true] := by
  have h : pyJsonLoads (pyStrip "[true]".data) =
      some (Json.arr [Json.bool true]) := rfl
  exact ⟨h, (claim_C2_extract_characterisation "[true]".data).1 _ h⟩

/-! ## C4: waypoint-generation vs repair on malformed LLM replies -/

/-- Whether a parsed JSON object carries JSON-number `lat` and `lng`
members (the literal reading of "numeric lat/lng"). -/
def hasNumericLatLng : Json → Bool
  | .obj fields =>
    (match dictGet fields "lat".data with
     | some (Json.num _) => true
     | _ => false) &&
    (match dictGet fields "lng".data with
     | some (Json.num _) => true
     | _ => false)
  | _ => false

/-- Whether a text parses whole as a non-empty JSON array of objects
with numeric lat/lng. -/
def parsesAsNumericWaypointArray (s : List Char) : Bool :=
  match pyJsonLoads s with
  | some (Json.arr l) => ¬ l.isEmpty ∧ l.all hasNumericLatLng
  | _ => false

/-- Whether a text parses whole as a JSON array that the waypoint
comprehension converts (objects with float-convertible lat/lng). -/
def convertibleWaypointArray (s : List Char) : Bool :=
  match pyJsonLoads s with
  | some (Json.arr l) => (waypointPairs l).isSome
  | _ => false

/-- Decidable sweep: no drop/take slice of the reply parses as a
numeric waypoint array. -/
def noNumericArrayInfix (reply : List Char) : Bool :=
  (List.range (reply.length + 1)).all fun i =>
    (List.range (reply.length + 1)).all fun j =>
      ¬ parsesAsNumericWaypointArray ((reply.drop i).take j)

/-- Decidable sweep: no drop/take slice of the reply parses as a
convertible waypoint array. -/
def noConvertibleArrayInfix (reply : List Char) : Bool :=
  (List.range (reply.length + 1)).all fun i =>
    (List.range (reply.length + 1)).all fun j =>
      ¬ convertibleWaypointArray ((reply.drop i).take j)

/-- The decidable sweep covers every infix. -/
theorem noInfix_of_sweep {p : List Char → Bool} {reply : List Char}
    (hs : (List.range (reply.length + 1)).all (fun i =>
      (List.range (reply.length + 1)).all fun j =>
        ¬ p ((reply.drop i).take j)) = true) :
    ∀ sub, sub <:+: reply → p sub = false := by
  intro sub hsub
  obtain ⟨s, t, hst⟩ := hsub
  have hsub2 : sub = (reply.drop s.length).take sub.length := by
    rw [← hst, List.append_assoc, List.drop_left, List.take_left]
  rw [List.all_eq_true] at hs
  have hslen : s.length ∈ List.range (reply.length + 1) := by
    rw [List.mem_range]
    have : s.length ≤ reply.length := by
      rw [← hst]
      simp only [List.length_append]
      omega
    omega
  have h2 := hs _ hslen
  rw [List.all_eq_true] at h2
  have hsublen : sub.length ∈ List.range (reply.length + 1) := by
    rw [List.mem_range]
    have : sub.length ≤ reply.length := by
      rw [← hst]
      simp only [List.length_append]
      omega
    omega
  have h3 := h2 _ hsublen
  simp only [decide_eq_true_eq, Bool.not_eq_true'] at h3
  rw [hsub2]
  simpa using h3

/-- Stripping yields an infix of the original string. -/
theorem pyStrip_sublist (s : List Char) : pyStrip s <:+: s := by
  unfold pyStrip
  have h3 : s.dropWhile isPyWs <:+ s := List.dropWhile_suffix _
  have h1 : (s.dropWhile isPyWs).reverse.dropWhile isPyWs <:+
      (s.dropWhile isPyWs).reverse := List.dropWhile_suffix _
  have h2 : ((s.dropWhile isPyWs).reverse.dropWhile isPyWs).reverse <+:
      s.dropWhile isPyWs := by
    rw [← List.reverse_suffix]
    simpa using h1
  exact h2.isInfix.trans h3.isInfix

/-- The greedy bracket span is an infix of the text. -/
theorem reSearchBracketSpan_sublist {t span : List Char}
    (h : reSearchBracketSpan t = some span) : span <:+: t := by
  unfold reSearchBracketSpan at h
  cases hf : t.findIdx? (· = '[') with
  | none => simp [hf] at h
  | some f =>
    simp only [hf] at h
    cases hj : t.reverse.findIdx? (· = ']') with
    | none => simp [hj] at h
    | some rj =>
      simp only [hj] at h
      by_cases hlt : f < t.length - 1 - rj
      · simp only [hlt, if_true, Option.some.injEq] at h
        rw [← h]
        exact ((List.take_prefix _ _).isInfix).trans
          ((List.drop_suffix _ _).isInfix)
      · simp [hlt] at h

/-- A successful extraction parses some infix of the text as an array. -/
theorem extract_success_sublist {text : List Char} {l : List Json}
    (h : _extract_json_array text = some l) :
    ∃ s, s <:+: text ∧ pyJsonLoads s = some (Json.arr l) := by
  unfold _extract_json_array at h
  simp only [] at h
  cases hw : pyJsonLoads (pyStrip text)
  case some v =>
    cases v
    case arr m =>
      simp only [hw, Option.some.injEq] at h
      exact ⟨pyStrip text, pyStrip_sublist text, by rw [hw, h]⟩
    all_goals
      simp only [hw] at h
      cases hs : reSearchBracketSpan (pyStrip text)
      case none => simp [hs] at h
      case some span =>
        simp only [hs] at h
        cases hp : pyJsonLoads span
        case none => simp [hp] at h
        case some w =>
          cases w
          case arr m =>
            simp only [hp, Option.some.injEq] at h
            exact ⟨span,
              (reSearchBracketSpan_sublist hs).trans (pyStrip_sublist text),
              by rw [hp, h]⟩
          all_goals simp [hp] at h
  case none =>
    simp only [hw] at h
    cases hs : reSearchBracketSpan (pyStrip text)
    case none => simp [hs] at h
    case some span =>
      simp only [hs] at h
      cases hp : pyJsonLoads span
      case none => simp [hp] at h
      case some w =>
        cases w
        case arr m =>
          simp only [hp, Option.some.injEq] at h
          exact ⟨span,
            (reSearchBracketSpan_sublist hs).trans (pyStrip_sublist text),
            by rw [hp, h]⟩
        all_goals simp [hp] at h

/-- C4 (amended): during initial waypoint generation, a reply none of
whose substrings parses as a JSON array convertible to waypoints
(objects with float-convertible lat/lng values - JSON numbers, numeric
strings or booleans) raises the model-response error; during repair, a
reply that fails to parse, or whose parsed array has a different element
count than the current list, leaves the current waypoint list unchanged
(and `_fix_waypoints` raises nothing, being total). -/
theorem claim_C4_parse_fallbacks
    (reply : List Char) (start : Point) (region : RegionLabel)
    (prefs : RoutePreferences) (previous_issues : List Issue)
    (route_summary : RouteSummary) (current : List Point)
    (issues : List Issue) (fix_summary : RouteSummary) :
    ((∀ sub, sub <:+: reply → convertibleWaypointArray sub = false) →
      _generate_waypoints reply start region prefs previous_issues
        route_summary = .error .invalidWaypointJson) ∧
    ((_extract_json_array (pyStrip reply) = none ∨
        ∃ parsed, _extract_json_array (pyStrip reply) = some parsed ∧
          parsed.length ≠ current.length) →
      (_fix_waypoints reply current issues prefs fix_summary).1 = current) := by
  constructor
  · intro hprem
    unfold _generate_waypoints
    simp only []
    cases hx : _extract_json_array (pyStrip reply) with
    | none => rfl
    | some parsed =>
      obtain ⟨sinf, hinf, hparse⟩ := extract_success_sublist hx
      have hinf2 : sinf <:+: reply := hinf.trans (pyStrip_sublist reply)
      have hconv := hprem sinf hinf2
      unfold convertibleWaypointArray at hconv
      rw [hparse] at hconv
      simp only [] at hconv
      cases hw : waypointPairs parsed with
      | none => simp only [hw]
      | some pts => rw [hw] at hconv; simp at hconv
  · intro hprem
    unfold _fix_waypoints
    simp only []
    cases hx : _extract_json_array (pyStrip reply) with
    | none => rfl
    | some parsed =>
      rcases hprem with hnone | ⟨parsed2, hp2, hlen⟩
      · rw [hx] at hnone; exact absurd hnone (by simp)
      · rw [hx] at hp2
        simp only [Option.some.injEq] at hp2
        subst hp2
        simp [if_neg hlen]

/-- The C4 counterexample reply: an array of objects whose lat/lng are
booleans, not numbers. -/
def cexC4 : List Char := "[\x7b\x22lat\x22: true, \x22lng\x22: true\x7d]".data

/-- C4 counterexample: no substring of the reply is a JSON array of
objects with numeric lat/lng (the decidable sweep over every slice), yet
`_generate_waypoints` succeeds rather than raising, because `float()`
coerces the booleans; the claim as stated is false on the code. -/
theorem claim_C4_counterexample :
    noNumericArrayInfix cexC4 = true ∧
      ∃ pts prompt,
        _generate_waypoints cexC4 (0, 0) (RegionLabel.address [])
          ⟨[], 150, 3, [], true⟩ [] none = .ok (pts, prompt) := by
  exact ⟨by decide, ⟨_, _, rfl⟩⟩

/-- Witness for the amended C4 theorem: a plain-prose reply makes
generation raise and repair keep the current list. -/
theorem claim_C4_parse_fallbacks_witness :
    noConvertibleArrayInfix "no json here".data = true ∧
    _generate_waypoints "no json here".data (0, 0) (RegionLabel.address [])
      ⟨[], 150, 3, [], true⟩ [] none = .error .invalidWaypointJson ∧
    (_extract_json_array (pyStrip "no json here".data) = none ∧
      (_fix_waypoints "no json here".data [((1 : ℚ), (2 : ℚ))] []
        ⟨[], 150, 3, [], true⟩ none).1 = [((1 : ℚ), (2 : ℚ))]) := by
  have hsweep : noConvertibleArrayInfix "no json here".data = true := by decide
  have hnone : _extract_json_array (pyStrip "no json here".data) = none := rfl
  refine ⟨hsweep, ?_, hnone, ?_⟩
  · exact (claim_C4_parse_fallbacks "no json here".data (0, 0)
      (RegionLabel.address []) ⟨[], 150, 3, [], true⟩ [] none
      [((1 : ℚ), (2 : ℚ))] [] none).1
      (noInfix_of_sweep hsweep)
  · exact (claim_C4_parse_fallbacks "no json here".data (0, 0)
      (RegionLabel.address []) ⟨[], 150, 3, [], true⟩ [] none
      [((1 : ℚ), (2 : ℚ))] [] none).2 (Or.inl hnone)

/-! ## C9: geocoding -/

/-- C9: an all-whitespace location raises the not-found-style error; a
location parsing as exactly two comma-separated floats returns them
directly, whatever the provider returns (no provider dependence); any
other non-empty location delegates to the provider, raising when it has
no results and returning the first result otherwise. -/
theorem claim_C9_geocode (location : List Char) :
    (pyStrip location = [] →
      ∀ provider, _geocode provider location = .error .emptyStartLocation) ∧
    (∀ a b : ℚ, ((pyStrip location).splitOn ',').length = 2 →
      pyFloat (pyStrip (((pyStrip location).splitOn ',').getD 0 [])) = some a →
      pyFloat (pyStrip (((pyStrip location).splitOn ',').getD 1 [])) = some b →
      ∀ provider, _geocode provider location = .ok (a, b)) ∧
    (pyStrip location ≠ [] →
      (∀ a b : ℚ, ¬(((pyStrip location).splitOn ',').length = 2 ∧
        pyFloat (pyStrip (((pyStrip location).splitOn ',').getD 0 [])) = some a ∧
        pyFloat (pyStrip (((pyStrip location).splitOn ',').getD 1 [])) = some b)) →
      (_geocode [] location = .error .couldNotGeocode ∧
        ∀ p rest, _geocode (p :: rest) location = .ok p)) := by
  refine ⟨?_, ?_, ?_⟩
  · intro hempty provider
    unfold _geocode
    simp only []
    rw [if_pos hempty]
  · intro a b hlen ha hb provider
    unfold _geocode
    simp only []
    have hne : ¬ (pyStrip location = []) := by
      intro h0
      rw [h0] at hlen
      simp [List.splitOn] at hlen
    rw [if_neg hne, if_pos hlen, ha, hb]
  · intro hne hnodirect
    have hdir : (if ((pyStrip location).splitOn ',').length = 2 then
        match pyFloat (pyStrip (((pyStrip location).splitOn ',').getD 0 [])),
            pyFloat (pyStrip (((pyStrip location).splitOn ',').getD 1 [])) with
        | some lat, some lng => some ((lat, lng) : Point)
        | _, _ => none
      else none) = none := by
      by_cases hlen : ((pyStrip location).splitOn ',').length = 2
      · rw [if_pos hlen]
        cases ha : pyFloat (pyStrip (((pyStrip location).splitOn ',').getD 0 [])) with
        | none =>
          cases hb : pyFloat (pyStrip (((pyStrip location).splitOn ',').getD 1 [])) with
          | none => rfl
          | some b => rfl
        | some a =>
          cases hb : pyFloat (pyStrip (((pyStrip location).splitOn ',').getD 1 [])) with
          | none => rfl
          | some b => exact absurd ⟨hlen, ha, hb⟩ (hnodirect a b)
      · rw [if_neg hlen]
    constructor
    · unfold _geocode
      simp only []
      rw [if_neg hne, hdir]
    · intro p rest
      unfold _geocode
      simp only []
      rw [if_neg hne, hdir]

/-- Witness for C9, exercising all three clauses at concrete inputs. -/
theorem claim_C9_geocode_witness :
    (pyStrip "  ".data = [] ∧
      _geocode [((5 : ℚ), (6 : ℚ))] "  ".data = .error .emptyStartLocation) ∧
    (∃ a b : ℚ,
      pyFloat (pyStrip ((((pyStrip "1, 2".data).splitOn ',')).getD 0 [])) = some a ∧
      pyFloat (pyStrip ((((pyStrip "1, 2".data).splitOn ',')).getD 1 [])) = some b ∧
      _geocode [((5 : ℚ), (6 : ℚ))] "1, 2".data = .ok (a, b) ∧
      _geocode [] "1, 2".data = .ok (a, b)) ∧
    (_geocode [] "London".data = .error .couldNotGeocode ∧
      _geocode [((5 : ℚ), (6 : ℚ))] "London".data = .ok (5, 6)) := by
  refine ⟨⟨rfl, (claim_C9_geocode "  ".data).1 rfl _⟩, ?_, ?_⟩
  · refine ⟨_, _, rfl, rfl, ?_, ?_⟩
    · exact (claim_C9_geocode "1, 2".data).2.1 _ _ (by decide) rfl rfl _
    · exact (claim_C9_geocode "1, 2".data).2.1 _ _ (by decide) rfl rfl _
  · have hnd : ∀ a b : ℚ, ¬(((pyStrip "London".data).splitOn ',').length = 2 ∧
        pyFloat (pyStrip (((pyStrip "London".data).splitOn ',').getD 0 [])) = some a ∧
        pyFloat (pyStrip (((pyStrip "London".data).splitOn ',').getD 1 [])) = some b) := by
      intro a b h
      exact absurd h.1 (by decide)
    have h3 := (claim_C9_geocode "London".data).2.2 (by decide) hnd
    exact ⟨h3.1, h3.2 (5, 6) []⟩

/-! ## C6: the urban-density check -/

/-- The `short_fraction` local of `_validate_route`. -/
def shortFraction (steps : List Step) : ℚ :=
  ((steps.filter fun s => s.distance < URBAN_SHORT_STEP_THRESHOLD_M).length : ℚ) /
    (steps.length : ℚ)

theorem highwayCheck_shape {route : Route} {x : Issue}
    (h : x ∈ highwayCheck route) : ∃ f, x = Issue.highway f := by
  simp only [highwayCheck] at h
  split_ifs at h <;> simp_all

theorem uturnCheck_shape {steps : List Step} {x : Issue}
    (h : x ∈ uturnCheck steps) : ∃ i, x = Issue.uturn i := by
  unfold uturnCheck at h
  cases hf : findUturn 1 steps <;> simp [hf] at h
  exact ⟨_, h⟩

theorem check_overlap_shape {o : List ℕ} {x : Issue}
    (h : x ∈ _check_polyline_overlap o) : ∃ f, x = Issue.doublesBack f := by
  simp only [_check_polyline_overlap] at h
  split_ifs at h <;> simp_all

theorem spurHit_shape {sampled : List Point} {segDist : List ℝ} {i j : ℕ} {x : Issue}
    (h : spurHit sampled segDist i j = some x) : ∃ a b, x = Issue.deadEndSpur a b := by
  simp only [spurHit] at h
  split_ifs at h <;> simp_all
  all_goals exact ⟨_, _, h.symm⟩

theorem check_backtrack_shape {o : List ℕ} {x : Issue}
    (h : x ∈ _check_backtrack_spurs o) : ∃ a b, x = Issue.deadEndSpur a b := by
  simp only [_check_backtrack_spurs] at h
  split_ifs at h with h1 h2
  · simp at h
  · simp at h
  · split at h
    next issue hfs =>
      obtain ⟨p, _, hsp⟩ := List.exists_of_findSome?_eq_some hfs
      obtain ⟨i, j⟩ := p
      simp only [List.mem_singleton] at h
      subst h
      exact spurHit_shape hsp
    next => simp at h

theorem overviewChecks_shape {route : Route} {x : Issue}
    (h : x ∈ overviewChecks route) :
    (∃ f, x = Issue.doublesBack f) ∨ ∃ a b, x = Issue.deadEndSpur a b := by
  unfold overviewChecks at h
  split_ifs at h
  · rcases List.mem_append.mp h with h | h
    · exact Or.inl (check_overlap_shape h)
    · exact Or.inr (check_backtrack_shape h)
  · simp at h

/-- Only the urban-density check of `_validate_route` can put an
`Issue.urban` into the issue list, and it does so exactly when the
short-step fraction strictly exceeds the limit (carrying that fraction
as its payload). -/
theorem urban_mem_validate {route : Route} {rest : List Route} {f : ℚ}
    (hsteps : routeSteps route ≠ []) :
    Issue.urban f ∈ _validate_route (route :: rest) ↔
      URBAN_SHORT_STEP_FRACTION_LIMIT < shortFraction (routeSteps route) ∧
        f = shortFraction (routeSteps route) := by
  have hne : (routeSteps route).isEmpty = false := by
    simp [List.isEmpty_iff, hsteps]
  constructor
  · intro hf
    simp only [_validate_route, List.mem_append] at hf
    rcases hf with ((hf | hf) | hf) | hf
    · obtain ⟨g, hg⟩ := highwayCheck_shape hf
      simp at hg
    · obtain ⟨i, hg⟩ := uturnCheck_shape hf
      simp at hg
    · rcases overviewChecks_shape hf with ⟨g, hg⟩ | ⟨a, b, hg⟩ <;> simp at hg
    · simp only [urbanCheck, hne, Bool.false_eq_true, if_false] at hf
      split_ifs at hf with hlt
      · simp only [List.mem_singleton, Issue.urban.injEq] at hf
        simp only [shortFraction]
        exact ⟨hlt, hf⟩
      · simp at hf
  · rintro ⟨hlt, rfl⟩
    simp only [_validate_route, List.mem_append]
    refine Or.inr ?_
    simp only [shortFraction] at hlt
    simp only [urbanCheck, hne, Bool.false_eq_true, if_false, shortFraction]
    rw [if_pos hlt]
    simp

/-- C6: For every directions result with a non-empty step list,
`_validate_route` reports an urban-density issue iff the fraction of
steps (across all legs) with distance strictly below 300 m is strictly
greater than 0.30; a short-step fraction of exactly 30% produces no
urban-density issue. -/
theorem claim_C6_urban_density (route : Route) (rest : List Route)
    (hsteps : routeSteps route ≠ []) :
    ((∃ f, Issue.urban f ∈ _validate_route (route :: rest)) ↔
        URBAN_SHORT_STEP_FRACTION_LIMIT < shortFraction (routeSteps route)) ∧
      (shortFraction (routeSteps route) = URBAN_SHORT_STEP_FRACTION_LIMIT →
        ∀ f, Issue.urban f ∉ _validate_route (route :: rest)) := by
  constructor
  · constructor
    · rintro ⟨f, hf⟩
      exact ((urban_mem_validate hsteps).mp hf).1
    · intro hlt
      exact ⟨_, (urban_mem_validate hsteps).mpr ⟨hlt, rfl⟩⟩
  · intro heq f hf
    have h := ((urban_mem_validate hsteps).mp hf).1
    rw [heq] at h
    exact lt_irrefl _ h

def stepC6 : Step :=
  { distance := 100, duration := 10, html_instructions := [],
    start_location := (0, 0), end_location := (0, 0) }

def routeC6 : Route :=
  { legs := [{ distance := 300, duration := 30, start_address := [],
               end_address := [], steps := [stepC6, stepC6, stepC6] }] }

theorem claim_C6_urban_density_witness :
    routeSteps routeC6 ≠ [] ∧
      ((∃ f, Issue.urban f ∈ _validate_route [routeC6]) ↔
        URBAN_SHORT_STEP_FRACTION_LIMIT < shortFraction (routeSteps routeC6)) := by
  have hsteps : routeSteps routeC6 ≠ [] := by simp [routeSteps, routeC6]
  exact ⟨hsteps, (claim_C6_urban_density routeC6 [] hsteps).1⟩


/-! ## C10: the snap fold invariant -/

theorem snapStep_cases (d : Route) (acc : List Point × List ℕ) (idx : ℕ) :
    snapStep d acc idx = acc ∨
      idx < acc.1.length ∧ ∃ b, _find_branch_point d idx = some b ∧
        snapStep d acc idx = (acc.1.set idx b, acc.2 ++ [idx]) := by
  unfold snapStep
  split_ifs with h
  · exact Or.inl rfl
  · cases hb : _find_branch_point d idx with
    | none => exact Or.inl rfl
    | some b => exact Or.inr ⟨by omega, b, rfl, rfl⟩

/-- Invariant of the `_snap_spur_waypoints` fold, relative to any
starting accumulator: length preservation, monotone snapped list,
unlisted indices untouched, and every position either untouched or
overwritten by its branch point and listed. -/
theorem snapFold_invariant (d : Route) (l : List ℕ) :
    ∀ acc : List Point × List ℕ,
      (l.foldl (snapStep d) acc).1.length = acc.1.length ∧
      (∀ x, x ∈ acc.2 → x ∈ (l.foldl (snapStep d) acc).2) ∧
      (∀ i, i ∉ (l.foldl (snapStep d) acc).2 →
        (l.foldl (snapStep d) acc).1[i]? = acc.1[i]?) ∧
      (∀ i, (l.foldl (snapStep d) acc).1[i]? = acc.1[i]? ∨
        ∃ b, _find_branch_point d i = some b ∧
          (l.foldl (snapStep d) acc).1[i]? = some b) ∧
      (∀ i, i ∈ (l.foldl (snapStep d) acc).2 → i ∈ acc.2 ∨
        ∃ b, _find_branch_point d i = some b ∧
          (l.foldl (snapStep d) acc).1[i]? = some b) := by
  induction l with
  | nil =>
    intro acc
    refine ⟨rfl, fun x hx => hx, fun i _ => rfl, fun i => Or.inl rfl,
      fun i hi => Or.inl hi⟩
  | cons idx tl ih =>
    intro acc
    rw [List.foldl_cons]
    rcases snapStep_cases d acc idx with heq | ⟨hlt, b, hb, heq⟩
    · rw [heq]
      exact ih acc
    · obtain ⟨ih1, ih2, ih3, ih4, ih5⟩ := ih (snapStep d acc idx)
      rw [heq] at ih1 ih2 ih3 ih4 ih5
      rw [heq]
      have hidx_mem : idx ∈ (tl.foldl (snapStep d) (acc.1.set idx b, acc.2 ++ [idx])).2 :=
        ih2 idx (List.mem_append_right _ (List.mem_singleton_self idx))
      have h4 : ∀ i, (tl.foldl (snapStep d) (acc.1.set idx b, acc.2 ++ [idx])).1[i]? =
          acc.1[i]? ∨
          ∃ c, _find_branch_point d i = some c ∧
            (tl.foldl (snapStep d) (acc.1.set idx b, acc.2 ++ [idx])).1[i]? = some c := by
        intro i
        rcases ih4 i with hkeep | hsnap
        · by_cases hii : idx = i
          · subst hii
            rw [List.getElem?_set_self hlt] at hkeep
            exact Or.inr ⟨b, hb, hkeep⟩
          · rw [List.getElem?_set_ne hii] at hkeep
            exact Or.inl hkeep
        · exact Or.inr hsnap
      refine ⟨?_, ?_, ?_, h4, ?_⟩
      · rw [ih1, List.length_set]
      · intro x hx
        exact ih2 x (List.mem_append_left _ hx)
      · intro i hi
        have hne : idx ≠ i := fun hii => hi (hii ▸ hidx_mem)
        rw [ih3 i hi, List.getElem?_set_ne hne]
      · intro i hi
        rcases ih5 i hi with hmem | hsnap
        · rcases List.mem_append.mp hmem with hmem | hmem
          · exact Or.inl hmem
          · have hii : i = idx := List.mem_singleton.mp hmem
            subst hii
            rcases ih4 i with hkeep | hsnap
            · rw [List.getElem?_set_self hlt] at hkeep
              exact Or.inr ⟨b, hb, hkeep⟩
            · exact Or.inr hsnap
        · exact Or.inr hsnap


/-- C10: `_snap_spur_waypoints` returns a waypoint list of exactly the
input's length; every index absent from the returned snapped-indices
list holds the unchanged original coordinate, and every listed index
holds the branch-point coordinate `_find_branch_point` computed for it. -/
theorem claim_C10_snap_invariant (d : Route) (waypoints : List Point) :
    (_snap_spur_waypoints d waypoints).1.length = waypoints.length ∧
      (∀ i, i ∉ (_snap_spur_waypoints d waypoints).2 →
        (_snap_spur_waypoints d waypoints).1[i]? = waypoints[i]?) ∧
      ∀ i, i ∈ (_snap_spur_waypoints d waypoints).2 →
        ∃ b, _find_branch_point d i = some b ∧
          (_snap_spur_waypoints d waypoints).1[i]? = some b := by
  simp only [_snap_spur_waypoints]
  split_ifs with h
  · exact ⟨rfl, fun i _ => rfl, fun i hi => absurd hi (List.not_mem_nil i)⟩
  · obtain ⟨h1, _, h3, _, h5⟩ :=
      snapFold_invariant d (_detect_uturn_waypoints d) (waypoints, [])
    refine ⟨h1, h3, fun i hi => ?_⟩
    rcases h5 i hi with hmem | hsnap
    · exact absurd hmem (List.not_mem_nil i)
    · exact hsnap

/-! ## C5: the branch-point walk refines its specification -/

theorem find?_range'_eq_none {p : ℕ → Bool} {s n : ℕ}
    (h : ∀ t, s ≤ t → t < s + n → p t = false) :
    (List.range' s n).find? p = none := by
  rw [List.find?_eq_none]
  intro x hx
  rw [List.mem_range'_1] at hx
  simp [h x hx.1 hx.2]

theorem find?_range'_eq_some {p : ℕ → Bool} {k : ℕ} :
    ∀ {n s : ℕ}, s ≤ k → k < s + n → p k = true →
      (∀ t, s ≤ t → t < k → p t = false) →
      (List.range' s n).find? p = some k := by
  intro n
  induction n with
  | zero =>
    intro s h1 h2 _ _
    omega
  | succ n ih =>
    intro s h1 h2 hk hless
    rw [List.range'_succ]
    by_cases hsk : s = k
    · subst hsk
      simp [List.find?_cons, hk]
    · have hs : p s = false := hless s le_rfl (by omega)
      rw [List.find?_cons, hs]
      exact ih (by omega) (by omega) hk (fun t ht1 ht2 => hless t (by omega) ht2)

theorem approachDists_length (ar : List Point) :
    (approachDists ar).length = ar.length - 1 := by
  simp [approachDists]

theorem approachDists_getD {ar : List Point} {n : ℕ} (h : n + 1 < ar.length) :
    (approachDists ar).getD n 0 = havQ (ar.getD n (0, 0)) (ar.getD (n + 1) (0, 0)) := by
  have hlen : n < (approachDists ar).length := by
    rw [approachDists_length]
    omega
  have hzip : n < (ar.zip ar.tail).length := by
    simpa [approachDists] using hlen
  have htail : n < ar.tail.length := by
    rw [List.length_tail]
    omega
  rw [List.getD_eq_getElem _ _ hlen,
    List.getD_eq_getElem _ _ (by omega : n < ar.length),
    List.getD_eq_getElem _ _ h]
  simp only [approachDists, List.getElem_map, List.getElem_zip, List.getElem_tail]

theorem approachDists_take_succ {ar : List Point} {step : ℕ}
    (h1 : 1 ≤ step) (h : step < ar.length) :
    (((approachDists ar).take (step - 1)).sum +
        havQ (ar.getD (step - 1) (0, 0)) (ar.getD step (0, 0)) : ℝ) =
      ((approachDists ar).take step).sum := by
  obtain ⟨n, rfl⟩ : ∃ n, step = n + 1 := ⟨step - 1, by omega⟩
  have hlen : n < (approachDists ar).length := by
    rw [approachDists_length]
    omega
  rw [List.take_succ]
  rw [List.getElem?_eq_getElem hlen]
  simp only [Nat.add_sub_cancel, Option.toList_some, List.sum_append,
    List.sum_cons, List.sum_nil, add_zero]
  rw [← List.getD_eq_getElem _ 0 hlen, approachDists_getD (by omega)]

theorem specWalkEnd_eq_of_all_close {ar dp : List Point} {ms : ℕ}
    (h : ∀ t, 1 ≤ t → t < ms →
      havQ (ar.getD t (0, 0)) (dp.getD t (0, 0)) < (SPUR_CORRIDOR_WIDTH_M : ℝ)) :
    specWalkEnd ar dp ms = ms := by
  have hnone := find?_range'_eq_none (p := fun k =>
      decide (¬ havQ (ar.getD k (0, 0)) (dp.getD k (0, 0)) <
        (SPUR_CORRIDOR_WIDTH_M : ℝ))) (s := 1) (n := ms - 1)
    (fun t ht1 ht2 => by simpa using h t ht1 (by omega))
  unfold specWalkEnd
  rw [hnone]

theorem specWalkEnd_eq_of_far {ar dp : List Point} {ms step : ℕ}
    (h1 : 1 ≤ step) (h2 : step < ms)
    (hclose : ∀ t, 1 ≤ t → t < step →
      havQ (ar.getD t (0, 0)) (dp.getD t (0, 0)) < (SPUR_CORRIDOR_WIDTH_M : ℝ))
    (hfar : ¬ havQ (ar.getD step (0, 0)) (dp.getD step (0, 0)) <
      (SPUR_CORRIDOR_WIDTH_M : ℝ)) :
    specWalkEnd ar dp ms = step := by
  have hsome := find?_range'_eq_some (p := fun k =>
      decide (¬ havQ (ar.getD k (0, 0)) (dp.getD k (0, 0)) <
        (SPUR_CORRIDOR_WIDTH_M : ℝ))) (n := ms - 1) (s := 1)
    h1 (by omega) (by simpa using hfar)
    (fun t ht1 ht2 => by simpa using hclose t ht1 ht2)
  unfold specWalkEnd
  rw [hsome]

/-- The walk loop of `_find_branch_point`, started at any step whose
predecessors were all within the corridor, lands exactly on the
spec-modelled walk end, last close pair, and spur length. -/
theorem branchLoop_eq_spec (ar dp : List Point) (ms : ℕ) (hms : ms ≤ ar.length) :
    ∀ fuel step, ms - step ≤ fuel → 1 ≤ step → step ≤ ms →
      (∀ t, 1 ≤ t → t < step →
        havQ (ar.getD t (0, 0)) (dp.getD t (0, 0)) < (SPUR_CORRIDOR_WIDTH_M : ℝ)) →
      branchLoop ar dp ms step (ar.getD (step - 1) (0, 0)) (dp.getD (step - 1) (0, 0))
          (((approachDists ar).take (step - 1)).sum) =
        (ar.getD (specWalkEnd ar dp ms - 1) (0, 0),
          dp.getD (specWalkEnd ar dp ms - 1) (0, 0),
          ((approachDists ar).take (specWalkEnd ar dp ms - 1)).sum) := by
  intro fuel
  induction fuel with
  | zero =>
    intro step hf h1 h2 hclose
    have hstep : step = ms := by omega
    subst hstep
    rw [specWalkEnd_eq_of_all_close hclose]
    rw [branchLoop, dif_pos le_rfl]
  | succ fuel ih =>
    intro step hf h1 h2 hclose
    by_cases hterm : ms ≤ step
    · have hstep : step = ms := by omega
      subst hstep
      rw [specWalkEnd_eq_of_all_close hclose]
      rw [branchLoop, dif_pos le_rfl]
    · by_cases hcl : havQ (ar.getD step (0, 0)) (dp.getD step (0, 0)) <
          (SPUR_CORRIDOR_WIDTH_M : ℝ)
      · rw [branchLoop, dif_neg hterm]
        simp only [if_pos hcl]
        rw [approachDists_take_succ h1 (by omega)]
        have hrec := ih (step + 1) (by omega) (by omega) (by omega)
          (fun t ht1 ht2 => by
            rcases Nat.lt_or_ge t step with hlt | hge
            · exact hclose t ht1 hlt
            · have ht : t = step := by omega
              subst ht
              exact hcl)
        simpa using hrec
      · rw [specWalkEnd_eq_of_far h1 (by omega) hclose hcl]
        rw [branchLoop, dif_neg hterm]
        simp only [if_neg hcl]

theorem branchLoop_from_start (ar dp : List Point) (ms : ℕ)
    (hms : ms ≤ ar.length) (h1 : 1 ≤ ms) :
    branchLoop ar dp ms 1 (ar.getD 0 (0, 0)) (dp.getD 0 (0, 0)) 0 =
      (ar.getD (specWalkEnd ar dp ms - 1) (0, 0),
        dp.getD (specWalkEnd ar dp ms - 1) (0, 0),
        ((approachDists ar).take (specWalkEnd ar dp ms - 1)).sum) := by
  have h := branchLoop_eq_spec ar dp ms hms (ms - 1) 1 (by omega) le_rfl h1
    (fun t ht1 ht2 => absurd ht1 (by omega))
  simpa using h

/-- C5: `_find_branch_point` computes exactly the spec-modelled branch
point: the midpoint of the last pair of corresponding approach/departure
points within the corridor width before divergence (or before running
out of points), and `none` when the walked spur length falls below the
minimum snap length or either leg is degenerate. -/
theorem claim_C5_branch_point_refinement (d : Route) (waypoint_idx : ℕ) :
    _find_branch_point d waypoint_idx = specBranchPoint d waypoint_idx := by
  unfold _find_branch_point specBranchPoint
  simp only []
  split_ifs with hlen
  · rfl
  · cases hA : d.legs[waypoint_idx]? with
    | none => rfl
    | some approach_leg =>
      cases hD : d.legs[waypoint_idx + 1]? with
      | none => rfl
      | some depart_leg =>
        simp only []
        by_cases hshort : (_decode_leg_polyline approach_leg).length < 2 ∨
            (_decode_leg_polyline depart_leg).length < 2
        · rw [if_pos hshort, if_pos hshort]
        · rw [if_neg hshort, if_neg hshort]
          push_neg at hshort
          have har : 2 ≤ (_decode_leg_polyline approach_leg).reverse.length := by
            rw [List.length_reverse]
            omega
          have hms1 : 1 ≤ min (_decode_leg_polyline approach_leg).reverse.length
              (_decode_leg_polyline depart_leg).length := by
            omega
          rw [branchLoop_from_start _ _ _ (min_le_left _ _) hms1]

/-! ## C1: the fatal-error condition of `generate` -/

/-- C1 (amended): once geocoding and the initial waypoint generation
succeed, the outcome of `generate` is decided by the `directions_result`
the attempt loop ends with — the result of the LAST attempt executed,
since every attempt overwrites it.  If that final result is absent,
`generate` raises the fatal error even when an earlier attempt had
obtained a route; if it is present, `generate` returns a `RouteResult`
built from that last route even when validation issues remain. -/
theorem claim_C1_fatal_error_last_attempt (env : Env) (prefs : RoutePreferences)
    (a b : ℚ) (sel : List Point) (pr : Prompt) (st : LoopState)
    (hgeo : _geocode env.geocode_results prefs.start_location = .ok (a, b))
    (hwp : _generate_waypoints (env.llm 0) (a, b)
      (_reverse_geocode_region env.reverse_geocode a b) prefs = .ok (sel, pr))
    (hloop : attemptLoop env prefs (a, b)
      (_reverse_geocode_region env.reverse_geocode a b) 0
      { selected := sel, llmIdx := 1 } = .ok st) :
    (st.directions_result = none →
      generate env prefs = .error .noResultAfterRetries) ∧
    ∀ r, st.directions_result = some r →
      ∃ res, generate env prefs = .ok res ∧
        res.encoded_polyline = _build_detailed_polyline r ∧
        res.distance_km = pyRound1 (_sum_legs r).1 ∧
        res.duration_min = (_sum_legs r).2 ∧
        res.waypoints = st.selected := by
  constructor
  · intro hdr
    simp only [generate, hgeo, hwp, hloop, hdr]
  · intro r hdr
    simp only [generate, hgeo, hwp, hloop, hdr]
    exact ⟨_, rfl, rfl, rfl, rfl, rfl⟩

/-- A single short step: triggers only the urban-density issue. -/
def stepC1 : Step :=
  { distance := 100, duration := 10, html_instructions := [],
    start_location := (0, 0), end_location := (0, 0) }

def legC1 : Leg :=
  { distance := 0, duration := 5, start_address := [], end_address := [],
    steps := [stepC1] }

/-- One-leg route with no overview polyline: validation flags it as
urban (its only step is short) without consulting any geometry. -/
def routeC1 : Route := { legs := [legC1] }

/-- An always-parseable single-waypoint LLM reply. -/
def llmReplyC1 : List Char := "[\x7b\"lat\": 1, \"lng\": 2\x7d]".data

/-- The waypoint list every parse of `llmReplyC1` produces. -/
def wpParsedC1 : List Point :=
  (waypointPairs ((_extract_json_array (pyStrip llmReplyC1)).getD [])).getD []

/-- Oracle environment: the FIRST directions call returns a (flawed)
route, every later call raises. -/
def envC1 : Env :=
  { geocode_results := [(1, 2)],
    reverse_geocode := none,
    llm := fun _ => llmReplyC1,
    directions := fun i => if i = 0 then some [routeC1] else none,
    street_view := fun _ => none }

def prefsC1 : RoutePreferences :=
  { start_location := "x".data, distance_km := 100, curviness := 3,
    scenery_type := "mixed".data, loop := true }

theorem geocodeC1 :
    _geocode envC1.geocode_results prefsC1.start_location = .ok (1, 2) := rfl

theorem regionC1 :
    _reverse_geocode_region envC1.reverse_geocode 1 2 = .coords 1 2 := rfl

theorem wpParsedC1_eq : ∃ v1 v2 : ℚ, wpParsedC1 = [(v1, v2)] := ⟨_, _, rfl⟩

theorem wpC1_ok (start : Point) (region : RegionLabel) (issues : List Issue)
    (summary : RouteSummary) :
    _generate_waypoints llmReplyC1 start region prefsC1 issues summary =
      .ok (wpParsedC1,
        Prompt.waypointGeneration region start prefsC1 LOOP_WAYPOINT_COUNT
          issues summary) := rfl

theorem fixC1_ok (cur : Point) (issues : List Issue) (summary : RouteSummary) :
    _fix_waypoints llmReplyC1 [cur] issues prefsC1 summary =
      (wpParsedC1, Prompt.fix issues prefsC1 [cur] summary) := rfl

theorem buildC1_first (w : List Point) :
    _build_and_validate envC1 0 (1, 2) w prefsC1 =
      ((some { routeC1 with key_waypoints := some (keyWaypoints w) },
        _validate_route [routeC1], []), 1) := by
  simp [_build_and_validate, envC1, routeC1]

theorem buildC1_rest (i : ℕ) (hi : i ≠ 0) (w : List Point) :
    _build_and_validate envC1 i (1, 2) w prefsC1 =
      ((none, [Issue.directionsApiError], []), i + 1) := by
  simp [_build_and_validate, envC1, hi]

theorem urbanC1_ne : urbanCheck [stepC1] ≠ [] := by
  simp only [urbanCheck, stepC1]
  norm_num [URBAN_SHORT_STEP_THRESHOLD_M, URBAN_SHORT_STEP_FRACTION_LIMIT]

theorem validateC1_ne : _validate_route [routeC1] ≠ [] := by
  intro hcon
  simp only [_validate_route, List.append_eq_nil] at hcon
  have hsteps : routeSteps routeC1 = [stepC1] := rfl
  exact urbanC1_ne (hsteps ▸ hcon.2)


set_option maxRecDepth 8000 in
set_option maxHeartbeats 1000000 in
theorem loopC1_eval (p0 : Point) :
    ∃ st : LoopState,
      attemptLoop envC1 prefsC1 (1, 2) (RegionLabel.coords 1 2) 0
        { selected := [p0], llmIdx := 1 } = .ok st ∧
      st.directions_result = none := by
  have hllm : ∀ k : ℕ, envC1.llm k = llmReplyC1 := fun _ => rfl
  rw [attemptLoop, dif_neg (by decide), buildC1_first]
  simp only [_extract_route_summary, hllm]
  rw [if_neg validateC1_ne, if_pos (by decide), if_neg (by decide)]
  simp only [fixC1_ok]
  rw [attemptLoop, dif_neg (by decide), buildC1_rest 1 (by decide)]
  simp only [_extract_route_summary, hllm]
  rw [if_neg (List.cons_ne_nil _ _), if_pos (by decide), if_neg (by decide)]
  obtain ⟨v1, v2, hv⟩ := wpParsedC1_eq
  rw [hv]
  simp only [fixC1_ok]
  rw [attemptLoop, dif_neg (by decide), buildC1_rest 2 (by decide)]
  simp only [_extract_route_summary, hllm]
  rw [if_neg (List.cons_ne_nil _ _), if_pos (by decide), if_pos (by decide)]
  simp only [wpC1_ok]
  rw [attemptLoop, dif_neg (by decide), buildC1_rest 3 (by decide)]
  simp only [_extract_route_summary, hllm]
  rw [if_neg (List.cons_ne_nil _ _), if_pos (by decide), if_pos (by decide)]
  simp only [wpC1_ok]
  rw [attemptLoop, dif_neg (by decide), buildC1_rest 4 (by decide)]
  simp only [_extract_route_summary, hllm]
  rw [if_neg (List.cons_ne_nil _ _), if_neg (by decide)]
  exact ⟨_, rfl, rfl⟩

/-- C1 is refuted in `envC1`: the first attempt obtains a directions
result (a route with an urban issue), yet `generate` raises the fatal
"no result after retries" error, because the four later attempts all
fail and the last one overwrites the stored result with `None`. -/
theorem claim_C1_counterexample :
    (_build_and_validate envC1 0 (1, 2) wpParsedC1 prefsC1).1.1 ≠ none ∧
    generate envC1 prefsC1 = .error .noResultAfterRetries := by
  constructor
  · rw [buildC1_first]
    simp
  · have hllm : ∀ k : ℕ, envC1.llm k = llmReplyC1 := fun _ => rfl
    obtain ⟨v1, v2, hv⟩ := wpParsedC1_eq
    obtain ⟨st, hloop, hdr⟩ := loopC1_eval (v1, v2)
    rw [← hv] at hloop
    simp only [generate, geocodeC1, regionC1, hllm, wpC1_ok, hloop, hdr]

theorem claim_C1_fatal_error_witness :
    ∃ (sel : List Point) (pr : Prompt) (st : LoopState),
      _geocode envC1.geocode_results prefsC1.start_location = .ok (1, 2) ∧
      _generate_waypoints (envC1.llm 0) (1, 2)
        (_reverse_geocode_region envC1.reverse_geocode 1 2) prefsC1 =
          .ok (sel, pr) ∧
      attemptLoop envC1 prefsC1 (1, 2)
        (_reverse_geocode_region envC1.reverse_geocode 1 2) 0
        { selected := sel, llmIdx := 1 } = .ok st ∧
      st.directions_result = none ∧
      generate envC1 prefsC1 = .error .noResultAfterRetries := by
  obtain ⟨v1, v2, hv⟩ := wpParsedC1_eq
  obtain ⟨st, hloop, hdr⟩ := loopC1_eval (v1, v2)
  rw [← hv] at hloop
  have hfinal := claim_C1_fatal_error_last_attempt envC1 prefsC1 1 2 wpParsedC1
    (Prompt.waypointGeneration (RegionLabel.coords 1 2) (1, 2) prefsC1
      LOOP_WAYPOINT_COUNT [] none) st geocodeC1
    (wpC1_ok (1, 2) (RegionLabel.coords 1 2) [] none) hloop
  exact ⟨wpParsedC1, _, st, geocodeC1,
    wpC1_ok (1, 2) (RegionLabel.coords 1 2) [] none, hloop, hdr, hfinal.1 hdr⟩

/-! ## C7: the overlap detector on a square loop and an out-and-back path

The geometric groundwork: the haversine argument is in `[0, 1]` for the
small coordinates involved, where `atan2 (sqrt a) (sqrt (1 - a))` is
`arcsin (sqrt a)`, giving usable lower bounds on `_haversine_m`. -/

/-- The `a` of the haversine formula. -/
noncomputable def havA (lat1 lng1 lat2 lng2 : ℝ) : ℝ :=
  Real.sin ((radians lat2 - radians lat1) / 2) ^ 2 +
    Real.cos (radians lat1) * Real.cos (radians lat2) *
      Real.sin (radians (lng2 - lng1) / 2) ^ 2

theorem haversine_eq_havA (lat1 lng1 lat2 lng2 : ℝ) :
    _haversine_m lat1 lng1 lat2 lng2 =
      6371000 * 2 * atan2 (Real.sqrt (havA lat1 lng1 lat2 lng2))
        (Real.sqrt (1 - havA lat1 lng1 lat2 lng2)) := rfl

theorem atan2_sqrt_eq_arcsin {a : ℝ} (h0 : 0 ≤ a) (h1 : a ≤ 1) :
    atan2 (Real.sqrt a) (Real.sqrt (1 - a)) = Real.arcsin (Real.sqrt a) := by
  rcases lt_or_eq_of_le h1 with hlt | heq
  · have hx : 0 < Real.sqrt (1 - a) := Real.sqrt_pos.mpr (by linarith)
    have hs1 : Real.sqrt a < 1 := by
      rw [show (1 : ℝ) = Real.sqrt 1 by simp]
      exact Real.sqrt_lt_sqrt h0 hlt
    unfold atan2
    rw [if_pos hx]
    rw [Real.arcsin_eq_arctan ⟨by linarith [Real.sqrt_nonneg a], hs1⟩]
    rw [Real.sq_sqrt h0]
  · subst heq
    simp [atan2, Real.arcsin_one]

theorem abs_sin_le_abs (x : ℝ) : |Real.sin x| ≤ |x| := by
  have key : ∀ y : ℝ, 0 ≤ y → |Real.sin y| ≤ y := by
    intro y hy
    rw [abs_le]
    refine ⟨?_, Real.sin_le hy⟩
    rcases le_or_lt y Real.pi with hp | hp
    · have := Real.sin_nonneg_of_nonneg_of_le_pi hy hp
      linarith
    · have := Real.neg_one_le_sin y
      have : (1 : ℝ) < y := lt_trans (by linarith [Real.pi_gt_three]) hp
      linarith [Real.neg_one_le_sin y]
  rcases le_or_lt 0 x with hx | hx
  · rw [abs_of_nonneg hx]
    exact key x hx
  · rw [abs_of_neg hx]
    have := key (-x) (by linarith)
    rwa [Real.sin_neg, abs_neg] at this

theorem sin_sq_le_sq (x : ℝ) : Real.sin x ^ 2 ≤ x ^ 2 := by
  rw [← sq_abs (Real.sin x), ← sq_abs x]
  exact pow_le_pow_left₀ (abs_nonneg _) (abs_sin_le_abs x) 2

theorem le_arcsin {x : ℝ} (h0 : 0 ≤ x) (h1 : x ≤ 1) : x ≤ Real.arcsin x := by
  have := Real.sin_le (Real.arcsin_nonneg.mpr h0)
  rwa [Real.sin_arcsin (by linarith) h1] at this

/-- `|sin t| = sin |t|` in the principal band. -/
theorem abs_sin_eq {t : ℝ} (h : |t| ≤ Real.pi) : |Real.sin t| = Real.sin |t| := by
  rcases le_or_lt 0 t with ht | ht
  · rw [abs_of_nonneg ht, abs_of_nonneg
      (Real.sin_nonneg_of_nonneg_of_le_pi ht (by rwa [abs_of_nonneg ht] at h))]
  · have h2 : -t ≤ Real.pi := by rwa [abs_of_neg ht] at h
    have h3 := Real.sin_nonneg_of_nonneg_of_le_pi (by linarith : (0:ℝ) ≤ -t) h2
    rw [Real.sin_neg] at h3
    rw [abs_of_neg ht, Real.sin_neg, abs_of_nonpos (by linarith)]

theorem radians_abs_eq (x : ℝ) : |radians x| = |x| * (Real.pi / 180) := by
  rw [radians, abs_mul, abs_of_pos (by positivity : (0:ℝ) < Real.pi / 180)]

theorem rad_sub_eq (a b : ℝ) : radians b - radians a = radians (b - a) := by
  unfold radians
  ring

theorem cos_radians_nonneg {x : ℝ} (h : |x| ≤ 1) : 0 ≤ Real.cos (radians x) := by
  have hπ := Real.pi_gt_three
  have hπ2 := Real.pi_lt_315
  have hx := abs_le.mp h
  apply Real.cos_nonneg_of_mem_Icc
  rw [Set.mem_Icc, radians]
  constructor
  · nlinarith [mul_nonneg (by linarith : (0:ℝ) ≤ x + 90) Real.pi_pos.le]
  · nlinarith [mul_nonneg (by linarith : (0:ℝ) ≤ 90 - x) Real.pi_pos.le]

theorem rad_half_small {x : ℝ} (h : |x| ≤ 2) : |radians x / 2| ≤ 1 / 50 := by
  have hπ2 := Real.pi_lt_315
  rw [abs_div, radians_abs_eq, abs_of_pos (by norm_num : (0:ℝ) < 2)]
  have h180 : |x| * (Real.pi / 180) ≤ 2 * (3.15 / 180) := by
    apply mul_le_mul h (by linarith) (by positivity) (by norm_num)
  linarith

theorem havA_nonneg {lat1 lng1 lat2 lng2 : ℝ} (h1 : |lat1| ≤ 1) (h2 : |lat2| ≤ 1) :
    0 ≤ havA lat1 lng1 lat2 lng2 := by
  have hc1 := cos_radians_nonneg h1
  have hc2 := cos_radians_nonneg h2
  unfold havA
  exact add_nonneg (sq_nonneg _) (mul_nonneg (mul_nonneg hc1 hc2) (sq_nonneg _))

theorem havA_le_one {lat1 lng1 lat2 lng2 : ℝ} (h1 : |lat1| ≤ 1) (h2 : |lat2| ≤ 1)
    (h3 : |lng2 - lng1| ≤ 1) : havA lat1 lng1 lat2 lng2 ≤ 1 := by
  have hA := sin_sq_le_sq ((radians lat2 - radians lat1) / 2)
  have hB := sin_sq_le_sq (radians (lng2 - lng1) / 2)
  have hAq : ((radians lat2 - radians lat1) / 2) ^ 2 ≤ (1/50) ^ 2 := by
    rw [rad_sub_eq]
    have hs : |radians (lat2 - lat1) / 2| ≤ 1 / 50 :=
      rad_half_small (by
        calc |lat2 - lat1| ≤ |lat2| + |lat1| := abs_sub _ _
        _ ≤ 2 := by linarith)
    have := abs_le.mp hs
    nlinarith
  have hBq : (radians (lng2 - lng1) / 2) ^ 2 ≤ (1/50) ^ 2 := by
    have hs : |radians (lng2 - lng1) / 2| ≤ 1 / 50 := rad_half_small (by linarith)
    have := abs_le.mp hs
    nlinarith
  have hc : Real.cos (radians lat1) * Real.cos (radians lat2) ≤ 1 := by
    nlinarith [Real.cos_le_one (radians lat1), Real.cos_le_one (radians lat2),
      Real.neg_one_le_cos (radians lat1), Real.neg_one_le_cos (radians lat2)]
  have hB0 : 0 ≤ Real.sin (radians (lng2 - lng1) / 2) ^ 2 := sq_nonneg _
  unfold havA
  nlinarith [mul_le_of_le_one_left hB0 hc]

theorem haversine_eq_arcsin {lat1 lng1 lat2 lng2 : ℝ} (h1 : |lat1| ≤ 1)
    (h2 : |lat2| ≤ 1) (h3 : |lng2 - lng1| ≤ 1) :
    _haversine_m lat1 lng1 lat2 lng2 =
      6371000 * 2 * Real.arcsin (Real.sqrt (havA lat1 lng1 lat2 lng2)) := by
  rw [haversine_eq_havA,
    atan2_sqrt_eq_arcsin (havA_nonneg h1 h2) (havA_le_one h1 h2 h3)]

theorem hav_ge_lat {lat1 lng1 lat2 lng2 : ℝ} (h1 : |lat1| ≤ 1) (h2 : |lat2| ≤ 1)
    (h3 : |lng2 - lng1| ≤ 1) :
    6371000 * |radians (lat2 - lat1)| ≤ _haversine_m lat1 lng1 lat2 lng2 := by
  rw [haversine_eq_arcsin h1 h2 h3]
  have hc1 := cos_radians_nonneg h1
  have hc2 := cos_radians_nonneg h2
  have hπ := Real.pi_gt_three
  have hthalf : |radians (lat2 - lat1) / 2| ≤ 1/50 := rad_half_small (by
    calc |lat2 - lat1| ≤ |lat2| + |lat1| := abs_sub _ _
    _ ≤ 2 := by linarith)
  have hge : Real.sin ((radians lat2 - radians lat1)/2) ^ 2 ≤
      havA lat1 lng1 lat2 lng2 := by
    unfold havA
    nlinarith [mul_nonneg (mul_nonneg hc1 hc2)
      (sq_nonneg (Real.sin (radians (lng2 - lng1) / 2)))]
  have hs := Real.sqrt_le_sqrt hge
  rw [Real.sqrt_sq_eq_abs, rad_sub_eq] at hs
  have habs : |radians (lat2 - lat1) / 2| ≤ Real.pi / 2 := by linarith
  have heq : |Real.sin (radians (lat2 - lat1) / 2)| =
      Real.sin |radians (lat2 - lat1) / 2| := abs_sin_eq (by linarith)
  have harc : |radians (lat2 - lat1) / 2| ≤
      Real.arcsin (Real.sqrt (havA lat1 lng1 lat2 lng2)) := by
    have h5 : Real.arcsin (Real.sin |radians (lat2 - lat1) / 2|) =
        |radians (lat2 - lat1) / 2| :=
      Real.arcsin_sin (by linarith [abs_nonneg (radians (lat2 - lat1) / 2)]) habs
    rw [← h5]
    apply Real.monotone_arcsin
    rw [← heq]
    exact hs
  rw [abs_div, abs_of_pos (by norm_num : (0:ℝ) < 2)] at harc
  linarith

theorem lat_far {lat1 lng1 lat2 lng2 : ℝ} (h1 : |lat1| ≤ 1) (h2 : |lat2| ≤ 1)
    (h3 : |lng2 - lng1| ≤ 1) (hd : 1/250 ≤ |lat2 - lat1|) :
    (300:ℝ) ≤ _haversine_m lat1 lng1 lat2 lng2 := by
  have h := hav_ge_lat h1 h2 h3
  have hπ := Real.pi_gt_three
  rw [radians_abs_eq] at h
  have hm : (1/250 : ℝ) * 3 ≤ |lat2 - lat1| * Real.pi :=
    mul_le_mul hd (by linarith) (by norm_num) (abs_nonneg _)
  nlinarith

theorem hav_samelat {h lng1 lng2 : ℝ} (hh : |h| ≤ 1) (hl : |lng2 - lng1| ≤ 1) :
    _haversine_m h lng1 h lng2 =
      6371000 * 2 * Real.arcsin
        (Real.cos (radians h) * Real.sin (|radians (lng2 - lng1)| / 2)) := by
  rw [haversine_eq_arcsin hh hh hl]
  congr 2
  unfold havA
  rw [sub_self, zero_div, Real.sin_zero]
  rw [show (0:ℝ)^2 = 0 by norm_num, zero_add]
  have hfact : Real.cos (radians h) * Real.cos (radians h) *
      Real.sin (radians (lng2 - lng1) / 2) ^ 2 =
      (Real.cos (radians h) * Real.sin (radians (lng2 - lng1) / 2)) ^ 2 := by
    ring
  rw [hfact, Real.sqrt_sq_eq_abs, abs_mul, abs_of_nonneg (cos_radians_nonneg hh)]
  congr 1
  have hb : |radians (lng2 - lng1) / 2| ≤ Real.pi := by
    have := rad_half_small (x := lng2 - lng1) (by linarith)
    linarith [Real.pi_gt_three]
  rw [abs_sin_eq hb, abs_div, abs_of_pos (by norm_num : (0:ℝ) < 2)]

theorem lng_far {h lng1 lng2 : ℝ} (hh0 : 0 ≤ h) (hh : h ≤ 1/25)
    (hd : 1/250 ≤ |lng2 - lng1|) (hl : |lng2 - lng1| ≤ 1) :
    (300:ℝ) ≤ _haversine_m h lng1 h lng2 := by
  have habs : |h| ≤ 1 := by
    rw [abs_of_nonneg hh0]
    linarith
  rw [hav_samelat habs hl]
  have hπ := Real.pi_gt_three
  have hπ2 := Real.pi_lt_315
  set x := |radians (lng2 - lng1)| / 2 with hxdef
  have hx_eq : x = |lng2 - lng1| * (Real.pi/180) / 2 := by
    rw [hxdef, radians_abs_eq]
  have hx_lb : (1/30000 : ℝ) ≤ x := by
    rw [hx_eq]
    nlinarith [mul_le_mul hd (by linarith : (3:ℝ) ≤ Real.pi) (by norm_num)
      (abs_nonneg (lng2 - lng1))]
  have hx_ub : x ≤ 1/100 := by
    rw [hx_eq]
    nlinarith [mul_le_mul hl (by linarith : Real.pi ≤ 3.15) Real.pi_pos.le
      (by norm_num : (0:ℝ) ≤ 1)]
  have hsin : x - x^3/4 < Real.sin x := Real.sin_gt_sub_cube (by linarith) (by linarith)
  have hsin_lb : x * (9/10) ≤ Real.sin x := by nlinarith [sq_nonneg x]
  have hcos : (99/100 : ℝ) ≤ Real.cos (radians h) := by
    have hlb := Real.one_sub_sq_div_two_le_cos (x := radians h)
    have hr : |radians h| ≤ 1/100 := by
      rw [radians_abs_eq, abs_of_nonneg hh0]
      nlinarith [mul_le_mul hh (by linarith : Real.pi ≤ 3.15) Real.pi_pos.le
        (by norm_num : (0:ℝ) ≤ 1/25)]
    have := abs_le.mp hr
    nlinarith
  have hz0 : 0 ≤ Real.cos (radians h) * Real.sin x := by
    apply mul_nonneg (by linarith)
    nlinarith
  have hz1 : Real.cos (radians h) * Real.sin x ≤ 1 := by
    nlinarith [Real.sin_le_one x, Real.cos_le_one (radians h),
      Real.neg_one_le_sin x, Real.neg_one_le_cos (radians h)]
  have harc := le_arcsin hz0 hz1
  nlinarith [mul_le_mul hcos hsin_lb (by nlinarith) (by linarith)]

theorem havQ_self (p : Point) : havQ p p = 0 := by
  unfold havQ _haversine_m
  norm_num [radians, atan2, Real.sqrt_one, Real.arctan_zero]

theorem nat_sub_abs_ge {m n : ℕ} (h : m ≠ n) : (1:ℝ) ≤ |(m:ℝ) - n| := by
  have h2 : ((m:ℤ) - n) ≠ 0 := sub_ne_zero.mpr (by exact_mod_cast h)
  have h3 := Int.one_le_abs h2
  calc (1:ℝ) = ((1:ℤ) : ℝ) := by norm_num
  _ ≤ ((|(m:ℤ) - n| : ℤ) : ℝ) := by exact_mod_cast h3
  _ = |(m:ℝ) - n| := by push_cast; rfl

theorem grid_dist {a b c d : ℕ} (ha : a ≤ 10) (hb : b ≤ 10) (hc : c ≤ 10)
    (hd : d ≤ 10) (hne : ¬ (a = c ∧ b = d)) :
    (300:ℝ) ≤ havQ ((a : ℚ)/250, (b : ℚ)/250) ((c : ℚ)/250, (d : ℚ)/250) := by
  unfold havQ
  push_cast
  have ha' : ((a:ℝ)) ≤ 10 := by exact_mod_cast ha
  have hb' : ((b:ℝ)) ≤ 10 := by exact_mod_cast hb
  have hc' : ((c:ℝ)) ≤ 10 := by exact_mod_cast hc
  have hd' : ((d:ℝ)) ≤ 10 := by exact_mod_cast hd
  have ha0 : (0:ℝ) ≤ (a:ℝ) := Nat.cast_nonneg a
  have hb0 : (0:ℝ) ≤ (b:ℝ) := Nat.cast_nonneg b
  have hc0 : (0:ℝ) ≤ (c:ℝ) := Nat.cast_nonneg c
  have hd0 : (0:ℝ) ≤ (d:ℝ) := Nat.cast_nonneg d
  have hlngsub : |(d:ℝ)/250 - (b:ℝ)/250| ≤ 1 := by
    rw [abs_le]
    constructor <;> nlinarith
  by_cases hac : a = c
  · subst hac
    have hbd : b ≠ d := fun hx => hne ⟨rfl, hx⟩
    apply lng_far (by positivity) (by nlinarith) ?_ hlngsub
    have h1 := nat_sub_abs_ge hbd.symm
    calc (1/250 : ℝ) = 1/250 := rfl
    _ ≤ |(d:ℝ) - (b:ℝ)|/250 := by linarith
    _ = |(d:ℝ)/250 - (b:ℝ)/250| := by
        rw [show (d:ℝ)/250 - (b:ℝ)/250 = ((d:ℝ) - (b:ℝ))/250 by ring, abs_div,
          abs_of_pos (by norm_num : (0:ℝ) < 250)]
  · apply lat_far ?_ ?_ hlngsub ?_
    · rw [abs_le]
      constructor <;> nlinarith
    · rw [abs_le]
      constructor <;> nlinarith
    · have h1 := nat_sub_abs_ge (Ne.symm hac)
      calc (1/250 : ℝ) ≤ |(c:ℝ) - (a:ℝ)|/250 := by linarith
      _ = |(c:ℝ)/250 - (a:ℝ)/250| := by
          rw [show (c:ℝ)/250 - (a:ℝ)/250 = ((c:ℝ) - (a:ℝ))/250 by ring, abs_div,
            abs_of_pos (by norm_num : (0:ℝ) < 250)]

theorem sampleAux_all {interval : ℝ} :
    ∀ (l : List Point) (prev : Point) (acc : ℝ), 0 ≤ acc →
      List.Chain' (fun a b => interval ≤ havQ a b) (prev :: l) →
      sampleAux interval prev l acc = l := by
  intro l
  induction l with
  | nil =>
    intro prev acc _ _
    rfl
  | cons p rest ih =>
    intro prev acc hacc hch
    obtain ⟨hrel, hch2⟩ := List.chain'_cons.mp hch
    simp only [sampleAux]
    rw [if_pos (by linarith : interval ≤ acc + havQ prev p)]
    rw [ih p 0 le_rfl hch2]

theorem samplePoints_all {interval : ℝ} {l : List Point}
    (h : List.Chain' (fun a b => interval ≤ havQ a b) l) :
    samplePoints interval l = l := by
  cases l with
  | nil => rfl
  | cons p rest =>
    simp only [samplePoints]
    rw [sampleAux_all rest p 0 le_rfl h]

theorem anyClose_false {p : Point} {l : List Point}
    (h : ∀ q ∈ l, ¬ havQ p q < (OVERLAP_PROXIMITY_THRESHOLD_M : ℝ)) :
    anyClose p l = false := by
  induction l with
  | nil => rfl
  | cons q rest ih =>
    simp only [anyClose]
    rw [if_neg (h q (List.mem_cons_self _ _))]
    exact ih (fun r hr => h r (List.mem_cons_of_mem _ hr))

theorem anyClose_true {p q : Point} {l : List Point} (hq : q ∈ l)
    (h : havQ p q < (OVERLAP_PROXIMITY_THRESHOLD_M : ℝ)) : anyClose p l = true := by
  induction l with
  | nil => cases hq
  | cons r rest ih =>
    simp only [anyClose]
    by_cases hr : havQ p r < (OVERLAP_PROXIMITY_THRESHOLD_M : ℝ)
    · rw [if_pos hr]
    · rw [if_neg hr]
      rcases List.mem_cons.mp hq with he | hm
      · rw [he] at h
        exact absurd h hr
      · exact ih hm

theorem overlapCount_eq_zero {l : List Point} (hnd : l.Nodup)
    (h : ∀ p ∈ l, ∀ q ∈ l, p ≠ q →
      ¬ havQ p q < (OVERLAP_PROXIMITY_THRESHOLD_M : ℝ)) :
    overlapCount l = 0 := by
  induction l with
  | nil => rfl
  | cons p rest ih =>
    simp only [overlapCount]
    have hfalse : anyClose p (rest.drop (OVERLAP_MIN_INDEX_GAP - 1)) = false := by
      apply anyClose_false
      intro q hq
      have hqr : q ∈ rest := List.drop_subset _ _ hq
      have hpq : p ≠ q := by
        intro he
        rw [he] at hnd
        exact (List.nodup_cons.mp hnd).1 hqr
      exact h p (List.mem_cons_self _ _) q (List.mem_cons_of_mem _ hqr) hpq
    rw [hfalse]
    simp only [Bool.false_eq_true, if_false, zero_add]
    exact ih (List.nodup_cons.mp hnd).2
      (fun a ha b hb => h a (List.mem_cons_of_mem _ ha) b (List.mem_cons_of_mem _ hb))

theorem map_e5round_eq_self : ∀ {pts : List Point},
    (∀ p ∈ pts, (∃ i : ℤ, p.1 = (i : ℚ) / 100000) ∧
      (∃ j : ℤ, p.2 = (j : ℚ) / 100000)) →
    pts.map (fun p => (e5round p.1, e5round p.2)) = pts := by
  intro pts
  induction pts with
  | nil =>
    intro _
    rfl
  | cons p rest ih =>
    intro h
    simp only [List.map_cons]
    rw [ih (fun q hq => h q (List.mem_cons_of_mem _ hq))]
    have hp := h p (List.mem_cons_self _ _)
    rw [e5round_eq_self hp.1, e5round_eq_self hp.2]

theorem decode_encode_exact {pts : List Point}
    (h : ∀ p ∈ pts, (∃ i : ℤ, p.1 = (i : ℚ) / 100000) ∧
      (∃ j : ℤ, p.2 = (j : ℚ) / 100000)) :
    _decode_polyline (_encode_polyline pts) = some pts := by
  rw [decode_encode, map_e5round_eq_self h]

theorem chain'_of_index {f : ℕ → Point} {n : ℕ} {R : Point → Point → Prop}
    (h : ∀ i, i + 1 < n → R (f i) (f (i + 1))) :
    List.Chain' R ((List.range n).map f) := by
  rw [List.chain'_iff_get]
  intro i hi
  simp only [List.length_map, List.length_range] at hi
  simp only [List.get_eq_getElem, List.getElem_map, List.getElem_range]
  exact h i (by omega)

/-- Grid latitude index (units of 0.004°) of the `i`-th vertex of the
exemplar square loop (counter-clockwise, closing at `i = 40`). -/
def sqA (i : ℕ) : ℕ :=
  if i ≤ 10 then 0 else if i ≤ 20 then i - 10 else if i ≤ 30 then 10 else 40 - i

/-- Grid longitude index of the `i`-th vertex of the exemplar square. -/
def sqB (i : ℕ) : ℕ :=
  if i ≤ 10 then i else if i ≤ 20 then 10 else if i ≤ 30 then 30 - i else 0

/-- The `i`-th vertex of the exemplar non-retracing square loop. -/
def sqPt (i : ℕ) : Point := ((sqA i : ℚ)/250, (sqB i : ℚ)/250)

/-- The exemplar square-loop polyline points (41 vertices, closed). -/
def sqPts : List Point := (List.range 41).map sqPt

/-- Grid latitude index of the `i`-th vertex of the exemplar
out-and-back path (north along a meridian, then back south). -/
def oabA (i : ℕ) : ℕ := if i ≤ 6 then i else 12 - i

/-- The `i`-th vertex of the exemplar out-and-back path. -/
def oabPt (i : ℕ) : Point := ((oabA i : ℚ)/250, ((0 : ℕ) : ℚ)/250)

/-- The exemplar out-and-back polyline points (7 north, 6 south). -/
def oabPts : List Point := (List.range 13).map oabPt

theorem sqA_le (i : ℕ) : sqA i ≤ 10 := by
  unfold sqA
  split_ifs <;> omega

theorem sqB_le (i : ℕ) : sqB i ≤ 10 := by
  unfold sqB
  split_ifs <;> omega

theorem oabA_le (i : ℕ) : oabA i ≤ 10 := by
  unfold oabA
  split_ifs <;> omega

theorem sq_coords_inj (i j : ℕ) (hi : 1 ≤ i) (hi2 : i ≤ 40) (hj : 1 ≤ j)
    (hj2 : j ≤ 40) (hab : sqA i = sqA j) (hcd : sqB i = sqB j) : i = j := by
  unfold sqA at hab
  unfold sqB at hcd
  split_ifs at hab hcd <;> omega

theorem sq_consec (i : ℕ) (h : i < 40) :
    ¬ (sqA i = sqA (i + 1) ∧ sqB i = sqB (i + 1)) := by
  unfold sqA sqB
  split_ifs <;> omega

theorem sq_dist_far (i j : ℕ)
    (hne : ¬ (sqA i = sqA j ∧ sqB i = sqB j)) :
    (300:ℝ) ≤ havQ (sqPt i) (sqPt j) :=
  grid_dist (sqA_le i) (sqB_le i) (sqA_le j) (sqB_le j) hne

theorem coords_of_sqPt_eq {i j : ℕ} (h : sqPt i = sqPt j) :
    sqA i = sqA j ∧ sqB i = sqB j := by
  have h1 := congrArg Prod.fst h
  have h2 := congrArg Prod.snd h
  simp only [sqPt] at h1 h2
  constructor
  · have : ((sqA i : ℚ)) = sqA j := by
      field_simp at h1
      exact_mod_cast h1
    exact_mod_cast this
  · have : ((sqB i : ℚ)) = sqB j := by
      field_simp at h2
      exact_mod_cast h2
    exact_mod_cast this

theorem oab_far (i j : ℕ) (hne : oabA i ≠ oabA j) :
    (300:ℝ) ≤ havQ (oabPt i) (oabPt j) :=
  grid_dist (oabA_le i) (by norm_num) (oabA_le j) (by norm_num)
    (fun hc => hne hc.1)

theorem oab_close (i j : ℕ) (he : oabA i = oabA j) :
    havQ (oabPt i) (oabPt j) < (OVERLAP_PROXIMITY_THRESHOLD_M : ℝ) := by
  have hpt : oabPt i = oabPt j := by
    unfold oabPt
    rw [he]
  rw [hpt, havQ_self]
  norm_num [OVERLAP_PROXIMITY_THRESHOLD_M]

theorem oab_consec (i : ℕ) (h : i < 12) : oabA i ≠ oabA (i + 1) := by
  unfold oabA
  split_ifs <;> omega

theorem sq_chain :
    List.Chain' (fun a b => (OVERLAP_SAMPLE_INTERVAL_M : ℝ) ≤ havQ a b) sqPts := by
  unfold sqPts
  apply chain'_of_index
  intro i hi
  have hcast : ((OVERLAP_SAMPLE_INTERVAL_M : ℤ) : ℝ) = 300 := by
    norm_num [OVERLAP_SAMPLE_INTERVAL_M]
  rw [hcast]
  exact sq_dist_far i (i + 1) (sq_consec i (by omega))

theorem oab_chain :
    List.Chain' (fun a b => (OVERLAP_SAMPLE_INTERVAL_M : ℝ) ≤ havQ a b) oabPts := by
  unfold oabPts
  apply chain'_of_index
  intro i hi
  have hcast : ((OVERLAP_SAMPLE_INTERVAL_M : ℤ) : ℝ) = 300 := by
    norm_num [OVERLAP_SAMPLE_INTERVAL_M]
  rw [hcast]
  exact oab_far i (i + 1) (oab_consec i (by omega))

theorem oab_not_close (i j : ℕ) (hne : oabA i ≠ oabA j) :
    ¬ havQ (oabPt i) (oabPt j) < (OVERLAP_PROXIMITY_THRESHOLD_M : ℝ) := by
  have h := oab_far i j hne
  have hcast : ((OVERLAP_PROXIMITY_THRESHOLD_M : ℤ) : ℝ) = 150 := by
    norm_num [OVERLAP_PROXIMITY_THRESHOLD_M]
  rw [hcast]
  linarith

theorem sq_nodup_tail : ((List.range' 1 40).map sqPt).Nodup := by
  have hnd : (List.range' 1 40).Nodup := by
    rw [List.range'_eq_map_range]
    exact (List.nodup_range 40).map (add_right_injective 1)
  apply List.Nodup.map_on ?_ hnd
  intro i hi j hj hf
  rw [List.mem_range'_1] at hi hj
  obtain ⟨h1, h2⟩ := coords_of_sqPt_eq hf
  exact sq_coords_inj i j hi.1 (by omega) hj.1 (by omega) h1 h2

theorem sq_spread_tail : ∀ p ∈ (List.range' 1 40).map sqPt,
    ∀ q ∈ (List.range' 1 40).map sqPt, p ≠ q →
    ¬ havQ p q < (OVERLAP_PROXIMITY_THRESHOLD_M : ℝ) := by
  intro p hp q hq hne
  obtain ⟨i, hi, rfl⟩ := List.mem_map.mp hp
  obtain ⟨j, hj, rfl⟩ := List.mem_map.mp hq
  have hcoords : ¬ (sqA i = sqA j ∧ sqB i = sqB j) := by
    intro hc
    apply hne
    unfold sqPt
    rw [hc.1, hc.2]
  have h := sq_dist_far i j hcoords
  have hcast : ((OVERLAP_PROXIMITY_THRESHOLD_M : ℤ) : ℝ) = 150 := by
    norm_num [OVERLAP_PROXIMITY_THRESHOLD_M]
  rw [hcast]
  linarith

theorem sq_count : overlapCount sqPts = 1 := by
  have hdecomp : sqPts = sqPt 0 :: ((List.range' 1 40).map sqPt) := by
    unfold sqPts
    rw [List.range_eq_range']
    rw [show (41:ℕ) = 40 + 1 from rfl, List.range'_succ]
    rfl
  rw [hdecomp, overlapCount]
  have hdrop : ((List.range' 1 40).map sqPt).drop (OVERLAP_MIN_INDEX_GAP - 1) =
      (List.range' 5 36).map sqPt := by
    rw [show OVERLAP_MIN_INDEX_GAP - 1 = 4 from rfl, ← List.map_drop]
    rw [show (List.range' 1 40).drop 4 = List.range' 5 36 by decide]
  have hmem : sqPt 40 ∈
      ((List.range' 1 40).map sqPt).drop (OVERLAP_MIN_INDEX_GAP - 1) := by
    rw [hdrop]
    exact List.mem_map_of_mem _ (by decide)
  have hclose : havQ (sqPt 0) (sqPt 40) < (OVERLAP_PROXIMITY_THRESHOLD_M : ℝ) := by
    rw [show sqPt 40 = sqPt 0 from rfl, havQ_self]
    norm_num [OVERLAP_PROXIMITY_THRESHOLD_M]
  rw [anyClose_true hmem hclose]
  rw [overlapCount_eq_zero sq_nodup_tail sq_spread_tail]
  norm_num

theorem oab_count : overlapCount oabPts = 4 := by
  have hlit : oabPts = [oabPt 0, oabPt 1, oabPt 2, oabPt 3, oabPt 4, oabPt 5,
      oabPt 6, oabPt 7, oabPt 8, oabPt 9, oabPt 10, oabPt 11, oabPt 12] := rfl
  have a0 : anyClose (oabPt 0) [oabPt 5, oabPt 6, oabPt 7, oabPt 8, oabPt 9,
      oabPt 10, oabPt 11, oabPt 12] = true :=
    anyClose_true (by simp) (oab_close 0 12 rfl)
  have a1 : anyClose (oabPt 1) [oabPt 6, oabPt 7, oabPt 8, oabPt 9,
      oabPt 10, oabPt 11, oabPt 12] = true :=
    anyClose_true (by simp) (oab_close 1 11 rfl)
  have a2 : anyClose (oabPt 2) [oabPt 7, oabPt 8, oabPt 9,
      oabPt 10, oabPt 11, oabPt 12] = true :=
    anyClose_true (by simp) (oab_close 2 10 rfl)
  have a3 : anyClose (oabPt 3) [oabPt 8, oabPt 9, oabPt 10, oabPt 11,
      oabPt 12] = true :=
    anyClose_true (by simp) (oab_close 3 9 rfl)
  have a4 : anyClose (oabPt 4) [oabPt 9, oabPt 10, oabPt 11, oabPt 12] = false := by
    apply anyClose_false
    intro q hq
    fin_cases hq
    · exact oab_not_close 4 9 (by decide)
    · exact oab_not_close 4 10 (by decide)
    · exact oab_not_close 4 11 (by decide)
    · exact oab_not_close 4 12 (by decide)
  have a5 : anyClose (oabPt 5) [oabPt 10, oabPt 11, oabPt 12] = false := by
    apply anyClose_false
    intro q hq
    fin_cases hq
    · exact oab_not_close 5 10 (by decide)
    · exact oab_not_close 5 11 (by decide)
    · exact oab_not_close 5 12 (by decide)
  have a6 : anyClose (oabPt 6) [oabPt 11, oabPt 12] = false := by
    apply anyClose_false
    intro q hq
    fin_cases hq
    · exact oab_not_close 6 11 (by decide)
    · exact oab_not_close 6 12 (by decide)
  have a7 : anyClose (oabPt 7) [oabPt 12] = false := by
    apply anyClose_false
    intro q hq
    fin_cases hq
    exact oab_not_close 7 12 (by decide)
  rw [hlit]
  rw [overlapCount, overlapCount, overlapCount, overlapCount, overlapCount,
    overlapCount, overlapCount, overlapCount, overlapCount, overlapCount,
    overlapCount, overlapCount, overlapCount, overlapCount]
  have anil : ∀ p : Point, anyClose p [] = false := fun _ => rfl
  norm_num [OVERLAP_MIN_INDEX_GAP, List.drop_succ_cons, List.drop_zero,
    List.drop_nil, a0, a1, a2, a3, a4, a5, a6, a7, anil]

theorem sq_e5 : ∀ p ∈ sqPts, (∃ i : ℤ, p.1 = (i : ℚ) / 100000) ∧
    (∃ j : ℤ, p.2 = (j : ℚ) / 100000) := by
  intro p hp
  obtain ⟨i, _, rfl⟩ := List.mem_map.mp hp
  constructor
  · refine ⟨400 * sqA i, ?_⟩
    simp only [sqPt]
    push_cast
    ring
  · refine ⟨400 * sqB i, ?_⟩
    simp only [sqPt]
    push_cast
    ring

theorem oab_e5 : ∀ p ∈ oabPts, (∃ i : ℤ, p.1 = (i : ℚ) / 100000) ∧
    (∃ j : ℤ, p.2 = (j : ℚ) / 100000) := by
  intro p hp
  obtain ⟨i, _, rfl⟩ := List.mem_map.mp hp
  constructor
  · refine ⟨400 * oabA i, ?_⟩
    simp only [oabPt]
    push_cast
    ring
  · refine ⟨0, ?_⟩
    simp only [oabPt]
    push_cast
    ring

/-- C7: on the exemplar simple non-retracing square loop the overlap
detector reports no issue (its only self-close pair is the loop closure,
1 of 41 samples, below the 3% limit), while the exemplar out-and-back
meridian path is flagged as doubling back: 4 of its 13 samples lie
within the proximity threshold of a sample at least 5 indices away, and
4/13 exceeds the 3% limit. -/
theorem claim_C7_overlap_detector :
    _check_polyline_overlap (_encode_polyline sqPts) = [] ∧
    ∃ f, _check_polyline_overlap (_encode_polyline oabPts) =
        [Issue.doublesBack f] ∧ OVERLAP_FRACTION_LIMIT < f := by
  constructor
  · simp only [_check_polyline_overlap]
    rw [decode_encode_exact sq_e5]
    simp only [Option.getD_some]
    rw [samplePoints_all sq_chain, sq_count]
    have hlen : sqPts.length = 41 := by simp [sqPts]
    rw [hlen]
    norm_num [OVERLAP_MIN_INDEX_GAP, OVERLAP_FRACTION_LIMIT]
  · simp only [_check_polyline_overlap]
    rw [decode_encode_exact oab_e5]
    simp only [Option.getD_some]
    rw [samplePoints_all oab_chain, oab_count]
    have hlen : oabPts.length = 13 := by simp [oabPts]
    rw [hlen]
    norm_num [OVERLAP_MIN_INDEX_GAP, OVERLAP_FRACTION_LIMIT]

/-- Grid latitude index of the `i`-th vertex of the SMALL exemplar
square loop (3 grid steps per side, closing at `i = 12`). -/
def sq13A (i : ℕ) : ℕ :=
  if i ≤ 3 then 0 else if i ≤ 6 then i - 3 else if i ≤ 9 then 3 else 12 - i

/-- Grid longitude index of the `i`-th vertex of the small square. -/
def sq13B (i : ℕ) : ℕ :=
  if i ≤ 3 then i else if i ≤ 6 then 3 else if i ≤ 9 then 9 - i else 0

/-- The `i`-th vertex of the small non-retracing square loop. -/
def sq13Pt (i : ℕ) : Point := ((sq13A i : ℚ)/250, (sq13B i : ℚ)/250)

/-- The small square-loop polyline points (13 vertices, closed). -/
def sq13Pts : List Point := (List.range 13).map sq13Pt

theorem sq13A_le (i : ℕ) : sq13A i ≤ 10 := by
  unfold sq13A
  split_ifs <;> omega

theorem sq13B_le (i : ℕ) : sq13B i ≤ 10 := by
  unfold sq13B
  split_ifs <;> omega

theorem sq13_coords_inj (i j : ℕ) (hi : 1 ≤ i) (hi2 : i ≤ 12) (hj : 1 ≤ j)
    (hj2 : j ≤ 12) (hab : sq13A i = sq13A j) (hcd : sq13B i = sq13B j) :
    i = j := by
  unfold sq13A at hab
  unfold sq13B at hcd
  split_ifs at hab hcd <;> omega

theorem sq13_consec (i : ℕ) (h : i < 12) :
    ¬ (sq13A i = sq13A (i + 1) ∧ sq13B i = sq13B (i + 1)) := by
  unfold sq13A sq13B
  split_ifs <;> omega

theorem sq13_dist_far (i j : ℕ)
    (hne : ¬ (sq13A i = sq13A j ∧ sq13B i = sq13B j)) :
    (300:ℝ) ≤ havQ (sq13Pt i) (sq13Pt j) :=
  grid_dist (sq13A_le i) (sq13B_le i) (sq13A_le j) (sq13B_le j) hne

theorem coords_of_sq13Pt_eq {i j : ℕ} (h : sq13Pt i = sq13Pt j) :
    sq13A i = sq13A j ∧ sq13B i = sq13B j := by
  have h1 := congrArg Prod.fst h
  have h2 := congrArg Prod.snd h
  simp only [sq13Pt] at h1 h2
  constructor
  · have : ((sq13A i : ℚ)) = sq13A j := by
      field_simp at h1
      exact_mod_cast h1
    exact_mod_cast this
  · have : ((sq13B i : ℚ)) = sq13B j := by
      field_simp at h2
      exact_mod_cast h2
    exact_mod_cast this

theorem sq13_chain :
    List.Chain' (fun a b => (OVERLAP_SAMPLE_INTERVAL_M : ℝ) ≤ havQ a b) sq13Pts := by
  unfold sq13Pts
  apply chain'_of_index
  intro i hi
  have hcast : ((OVERLAP_SAMPLE_INTERVAL_M : ℤ) : ℝ) = 300 := by
    norm_num [OVERLAP_SAMPLE_INTERVAL_M]
  rw [hcast]
  exact sq13_dist_far i (i + 1) (sq13_consec i (by omega))

theorem sq13_nodup_tail : ((List.range' 1 12).map sq13Pt).Nodup := by
  have hnd : (List.range' 1 12).Nodup := by
    rw [List.range'_eq_map_range]
    exact (List.nodup_range 12).map (add_right_injective 1)
  apply List.Nodup.map_on ?_ hnd
  intro i hi j hj hf
  rw [List.mem_range'_1] at hi hj
  obtain ⟨h1, h2⟩ := coords_of_sq13Pt_eq hf
  exact sq13_coords_inj i j hi.1 (by omega) hj.1 (by omega) h1 h2

theorem sq13_spread_tail : ∀ p ∈ (List.range' 1 12).map sq13Pt,
    ∀ q ∈ (List.range' 1 12).map sq13Pt, p ≠ q →
    ¬ havQ p q < (OVERLAP_PROXIMITY_THRESHOLD_M : ℝ) := by
  intro p hp q hq hne
  obtain ⟨i, hi, rfl⟩ := List.mem_map.mp hp
  obtain ⟨j, hj, rfl⟩ := List.mem_map.mp hq
  have hcoords : ¬ (sq13A i = sq13A j ∧ sq13B i = sq13B j) := by
    intro hc
    apply hne
    unfold sq13Pt
    rw [hc.1, hc.2]
  have h := sq13_dist_far i j hcoords
  have hcast : ((OVERLAP_PROXIMITY_THRESHOLD_M : ℤ) : ℝ) = 150 := by
    norm_num [OVERLAP_PROXIMITY_THRESHOLD_M]
  rw [hcast]
  linarith

theorem sq13_count : overlapCount sq13Pts = 1 := by
  have hdecomp : sq13Pts = sq13Pt 0 :: ((List.range' 1 12).map sq13Pt) := by
    unfold sq13Pts
    rw [List.range_eq_range']
    rw [show (13:ℕ) = 12 + 1 from rfl, List.range'_succ]
    rfl
  rw [hdecomp, overlapCount]
  have hdrop : ((List.range' 1 12).map sq13Pt).drop (OVERLAP_MIN_INDEX_GAP - 1) =
      (List.range' 5 8).map sq13Pt := by
    rw [show OVERLAP_MIN_INDEX_GAP - 1 = 4 from rfl, ← List.map_drop]
    rw [show (List.range' 1 12).drop 4 = List.range' 5 8 by decide]
  have hmem : sq13Pt 12 ∈
      ((List.range' 1 12).map sq13Pt).drop (OVERLAP_MIN_INDEX_GAP - 1) := by
    rw [hdrop]
    exact List.mem_map_of_mem _ (by decide)
  have hclose : havQ (sq13Pt 0) (sq13Pt 12) < (OVERLAP_PROXIMITY_THRESHOLD_M : ℝ) := by
    rw [show sq13Pt 12 = sq13Pt 0 from rfl, havQ_self]
    norm_num [OVERLAP_PROXIMITY_THRESHOLD_M]
  rw [anyClose_true hmem hclose]
  rw [overlapCount_eq_zero sq13_nodup_tail sq13_spread_tail]
  norm_num

theorem sq13_e5 : ∀ p ∈ sq13Pts, (∃ i : ℤ, p.1 = (i : ℚ) / 100000) ∧
    (∃ j : ℤ, p.2 = (j : ℚ) / 100000) := by
  intro p hp
  obtain ⟨i, _, rfl⟩ := List.mem_map.mp hp
  constructor
  · refine ⟨400 * sq13A i, ?_⟩
    simp only [sq13Pt]
    push_cast
    ring
  · refine ⟨400 * sq13B i, ?_⟩
    simp only [sq13Pt]
    push_cast
    ring

/-- C7 is refuted as universally stated: `sq13Pts` traces a simple
non-retracing square loop (3 samples per side, 13 sampled points), yet
`_check_polyline_overlap` flags it as doubling back — its single
closure pair is 1 of 13 samples, already above the 3% limit. -/
theorem claim_C7_counterexample :
    ∃ f, _check_polyline_overlap (_encode_polyline sq13Pts) =
        [Issue.doublesBack f] ∧ OVERLAP_FRACTION_LIMIT < f := by
  simp only [_check_polyline_overlap]
  rw [decode_encode_exact sq13_e5]
  simp only [Option.getD_some]
  rw [samplePoints_all sq13_chain, sq13_count]
  have hlen : sq13Pts.length = 13 := by simp [sq13Pts]
  rw [hlen]
  norm_num [OVERLAP_MIN_INDEX_GAP, OVERLAP_FRACTION_LIMIT]

end MotoMuse
